import Mathlib

/-!
# convogen: the chat-completion client of `llm.go`

A shallow embedding of `OpenAIChatModel.Generate`, `NewGPT4oModel` and
`bearerHttpRequest`, with a model of the parts of Go's standard library that
decide what they do: `unicode/utf8`, the `encoding/json` encoder at the request
type (as a `json.Encoder` runs it, HTML escaping on), the `encoding/json`
decoder into an `openAIChatRequest`, and `http.NewRequest`.

* A Go `string` or `[]byte` is a list of bytes (`GoString`); a Go string need
  not be valid UTF-8.
* A slice that is only ranged over, indexed or measured is a list; the slice
  `openAIChatRequest.Messages`, which is encoded, keeps apart nil and empty.
* A Go function returning `error` returns `Option GoError` (`none` is `nil`).
* The network is an oracle, `Env.Do`; so is `url.Parse`, `Env.urlParse`. The
  effects of a call are recorded in a `World`: the HTTP requests handed to the
  client and the log entries written.
* `json.Unmarshal` at the response type is a parameter of `Generate`: what is
  proved of `Generate` holds for every behaviour of it.
-/

namespace Convogen

/-! ## Bytes and strings -/

/-- A Go `string` (or `[]byte`): a sequence of bytes. -/
abbrev GoString := List Nat

/-- The bytes of an ASCII literal. -/
def ascii (s : String) : GoString := s.toList.map Char.toNat

/-! ## `unicode/utf8` -/

/-- The rune `utf8.RuneError`, U+FFFD. -/
def RuneError : Nat := 0xFFFD

/-- The constant `utf8.RuneSelf`: bytes below it are single-byte runes. -/
def RuneSelf : Nat := 0x80

/-- The constant `utf8.UTFMax`: the longest encoding of a rune, in bytes. -/
def UTFMax : Nat := 4

/-- Continuation byte test of `unicode/utf8`: `locb <= b && b <= hicb`. -/
def isCont (b : Nat) : Bool := 0x80 ≤ b && b ≤ 0xBF

/-- Lower bound that `acceptRanges` gives for the second byte after lead byte `s0`. -/
def acceptLo (s0 : Nat) : Nat :=
  if s0 = 0xE0 then 0xA0 else if s0 = 0xF0 then 0x90 else 0x80

/-- Upper bound that `acceptRanges` gives for the second byte after lead byte `s0`. -/
def acceptHi (s0 : Nat) : Nat :=
  if s0 = 0xED then 0x9F else if s0 = 0xF4 then 0x8F else 0xBF

/-- The function `utf8.DecodeRune` (and `DecodeRuneInString`): the first rune of
`s` and its width in bytes. It returns `(RuneError, 0)` for the empty input and
`(RuneError, 1)` for an invalid encoding. The lead-byte table `first` is written
out as ranges: `00-7F` ASCII, `C2-DF` two bytes, `E0-EF` three, `F0-F4` four, all
other bytes invalid. -/
def DecodeRune : List Nat → Nat × Nat
  | [] => (RuneError, 0)
  | s0 :: t =>
    if s0 < 0x80 then (s0, 1)
    else if s0 < 0xC2 then (RuneError, 1)
    else if s0 ≤ 0xDF then
      match t with
      | s1 :: _ =>
        if s1 < acceptLo s0 ∨ acceptHi s0 < s1 then (RuneError, 1)
        else (((s0 &&& 0x1F) <<< 6) ||| (s1 &&& 0x3F), 2)
      | _ => (RuneError, 1)
    else if s0 ≤ 0xEF then
      match t with
      | s1 :: s2 :: _ =>
        if s1 < acceptLo s0 ∨ acceptHi s0 < s1 then (RuneError, 1)
        else if !isCont s2 then (RuneError, 1)
        else (((s0 &&& 0x0F) <<< 12) ||| ((s1 &&& 0x3F) <<< 6) ||| (s2 &&& 0x3F), 3)
      | _ => (RuneError, 1)
    else if s0 ≤ 0xF4 then
      match t with
      | s1 :: s2 :: s3 :: _ =>
        if s1 < acceptLo s0 ∨ acceptHi s0 < s1 then (RuneError, 1)
        else if !isCont s2 then (RuneError, 1)
        else if !isCont s3 then (RuneError, 1)
        else (((s0 &&& 0x07) <<< 18) ||| ((s1 &&& 0x3F) <<< 12) ||| ((s2 &&& 0x3F) <<< 6)
                ||| (s3 &&& 0x3F), 4)
      | _ => (RuneError, 1)
    else (RuneError, 1)

/-- The function `utf8.EncodeRune` (and `AppendRune`): the UTF-8 encoding of rune
`r`; surrogates and values above `MaxRune` are encoded as `RuneError`. `byte(x)`
is `x % 256`. -/
def EncodeRune (r : Nat) : List Nat :=
  if r ≤ 0x7F then [r % 256]
  else if r ≤ 0x7FF then [0xC0 ||| ((r >>> 6) % 256), 0x80 ||| ((r % 256) &&& 0x3F)]
  else if r > 0x10FFFF ∨ (0xD800 ≤ r ∧ r ≤ 0xDFFF) then [0xEF, 0xBF, 0xBD]
  else if r ≤ 0xFFFF then
    [0xE0 ||| ((r >>> 12) % 256), 0x80 ||| (((r >>> 6) % 256) &&& 0x3F),
      0x80 ||| ((r % 256) &&& 0x3F)]
  else
    [0xF0 ||| ((r >>> 18) % 256), 0x80 ||| (((r >>> 12) % 256) &&& 0x3F),
      0x80 ||| (((r >>> 6) % 256) &&& 0x3F), 0x80 ||| ((r % 256) &&& 0x3F)]

/-- The loop of `utf8.Valid`: every position decodes to something other than
`(RuneError, 1)`. The fuel bounds the number of runes; the length of the input
is always enough. -/
def validLoop : Nat → List Nat → Bool
  | _, [] => true
  | 0, _ :: _ => false
  | fuel + 1, b :: rest =>
    if (DecodeRune (b :: rest)).1 = RuneError ∧ (DecodeRune (b :: rest)).2 = 1 then false
    else validLoop fuel ((b :: rest).drop (DecodeRune (b :: rest)).2)

/-- The function `utf8.Valid` (and `ValidString`): `s` consists entirely of
valid UTF-8 encoded runes. -/
def Valid (s : GoString) : Bool := validLoop s.length s

/-! ## `encoding/json`: values -/

/-- A JSON document as a tree. A number keeps its literal text. -/
inductive JsonValue where
  | null
  | bool (b : Bool)
  | number (lit : List Nat)
  | string (s : GoString)
  | array (elems : List JsonValue)
  | object (members : List (GoString × JsonValue))

/-! ## The types of `llm.go` -/

/-- The struct `OpenAIChatModel`. -/
structure OpenAIChatModel where
  model : GoString
  apiKey : GoString
  systemMessages : List GoString
  deriving DecidableEq

/-- The struct `openAIMessage`. -/
structure openAIMessage where
  Role : GoString
  Content : GoString
  deriving DecidableEq

/-- The struct `openAIChatRequest`. The slice `Messages` is `none` when it is
the nil slice and `some l` when it is a non-nil slice with elements `l`: the
JSON encoder writes the two differently. -/
structure openAIChatRequest where
  Model : GoString
  Messages : Option (List openAIMessage)
  deriving DecidableEq

/-- The anonymous struct of `openAiChatResponse.Choices[i].Message`. -/
structure openAiChatResponseMessage where
  Role : GoString
  Content : GoString

/-- The anonymous element struct of `openAiChatResponse.Choices`. The field
`Logprobs interface{}` holds whatever JSON value was decoded into it. -/
structure openAiChatResponseChoice where
  Index : Int
  Message : openAiChatResponseMessage
  Logprobs : JsonValue
  FinishReason : GoString

/-- The anonymous struct of `openAiChatResponse.Usage.CompletionTokensDetails`. -/
structure openAiChatResponseCompletionTokensDetails where
  ReasoningTokens : Int

/-- The anonymous struct of `openAiChatResponse.Usage`. -/
structure openAiChatResponseUsage where
  PromptTokens : Int
  CompletionTokens : Int
  TotalTokens : Int
  CompletionTokensDetails : openAiChatResponseCompletionTokensDetails

/-- The struct `openAiChatResponse`. -/
structure openAiChatResponse where
  ID : GoString
  Object : GoString
  Created : Int
  Model : GoString
  SystemFingerprint : GoString
  Choices : List openAiChatResponseChoice
  Usage : openAiChatResponseUsage

/-- The zero value of `openAiChatResponse`, what `var openAIRes openAiChatResponse`
declares. -/
def openAiChatResponse.zero : openAiChatResponse :=
  { ID := [], Object := [], Created := 0, Model := [], SystemFingerprint := [],
    Choices := [],
    Usage := { PromptTokens := 0, CompletionTokens := 0, TotalTokens := 0,
               CompletionTokensDetails := { ReasoningTokens := 0 } } }

/-! ## Errors -/

/-- A Go `error` value: one made by `fmt.Errorf` in `llm.go` with its formatted
message, the error of `http.NewRequest` for an invalid method, or an error
value that a library call or the network produced. -/
inductive GoError where
  | errorf (msg : GoString)
  | invalidMethod (method : GoString)
  | lib (msg : GoString)
  deriving DecidableEq

/-! ## `encoding/json`: the encoder -/

/-- The table `htmlSafeSet` of `encoding/json`: the ASCII bytes written into a
JSON string unchanged when HTML escaping is on (the default of an `Encoder`). -/
def htmlSafeSet (b : Nat) : Bool :=
  0x20 ≤ b && b < 0x80 && b != 0x22 && b != 0x26 && b != 0x3C && b != 0x3E && b != 0x5C

/-- The digit `hex[n]` of `"0123456789abcdef"`. -/
def hex (n : Nat) : Nat := if n < 10 then 0x30 + n else 0x57 + n

/-- The escape that `appendString` writes for an ASCII byte outside
`htmlSafeSet`: a two-byte escape for the backslash, the quote, backspace, form
feed, newline, carriage return and tab (Go 1.22 and later; earlier versions
write backspace and form feed in the six-byte form), and the six-byte form
for every other byte. -/
def escapeByte (b : Nat) : List Nat :=
  if b = 0x5C ∨ b = 0x22 then [0x5C, b]
  else if b = 0x08 then [0x5C, 0x62]
  else if b = 0x0C then [0x5C, 0x66]
  else if b = 0x0A then [0x5C, 0x6E]
  else if b = 0x0D then [0x5C, 0x72]
  else if b = 0x09 then [0x5C, 0x74]
  else [0x5C, 0x75, 0x30, 0x30, hex (b >>> 4), hex (b &&& 0xF)]

/-- The loop of `appendString` of `encoding/json` with `escapeHTML = true`, on
the bytes from the current index on. Safe ASCII bytes and valid multi-byte
runes are copied, other ASCII bytes are escaped, an invalid byte becomes the
six-byte escape of U+FFFD, and U+2028 and U+2029 are escaped. Each round consumes at
least one byte, so fuel equal to the length of the input is enough. -/
def appendStringLoop : Nat → List Nat → List Nat
  | _, [] => []
  | 0, _ :: _ => []
  | fuel + 1, b :: rest =>
    if b < RuneSelf then
      if htmlSafeSet b then b :: appendStringLoop fuel rest
      else escapeByte b ++ appendStringLoop fuel rest
    else
      let c := (DecodeRune ((b :: rest).take UTFMax)).1
      let size := (DecodeRune ((b :: rest).take UTFMax)).2
      if c = RuneError ∧ size = 1 then
        ascii "\\ufffd" ++ appendStringLoop fuel rest
      else if c = 0x2028 ∨ c = 0x2029 then
        ascii "\\u202" ++ [hex (c &&& 0xF)] ++ appendStringLoop fuel ((b :: rest).drop size)
      else
        (b :: rest).take size ++ appendStringLoop fuel ((b :: rest).drop size)

/-- The function `appendString` of `encoding/json` with `escapeHTML = true`: the
JSON string literal for the Go string `src`. -/
def appendString (src : GoString) : List Nat :=
  [0x22] ++ appendStringLoop src.length src ++ [0x22]

/-- The JSON text that `json.Marshal` writes for an `openAIMessage`. -/
def marshalOpenAIMessage (m : openAIMessage) : List Nat :=
  ascii "\x7b\"role\":" ++ appendString m.Role ++ ascii ",\"content\":"
    ++ appendString m.Content ++ ascii "\x7d"

/-- The elements of a JSON array, separated by commas. -/
def marshalElems : List openAIMessage → List Nat
  | [] => []
  | [m] => marshalOpenAIMessage m
  | m :: ms => marshalOpenAIMessage m ++ [0x2C] ++ marshalElems ms

/-- The JSON text for a `[]openAIMessage`: `null` for the nil slice, else an
array. -/
def marshalMessages : Option (List openAIMessage) → List Nat
  | none => ascii "null"
  | some ms => [0x5B] ++ marshalElems ms ++ [0x5D]

/-- The JSON text that `json.Marshal` writes for an `openAIChatRequest`: the
fields in declaration order under their `json` tags, no whitespace. -/
def marshalOpenAIChatRequest (r : openAIChatRequest) : List Nat :=
  ascii "\x7b\"model\":" ++ appendString r.Model ++ ascii ",\"messages\":"
    ++ marshalMessages r.Messages ++ ascii "\x7d"

/-- The method `(*json.Encoder).Encode`: the JSON text of the value followed by
a newline character, written to the buffer. `marshal` is `json.Marshal` at the
type of the value. -/
def EncoderEncode {α : Type} (marshal : α → Except GoError (List Nat)) (v : α) :
    Except GoError (List Nat) :=
  match marshal v with
  | .error err => .error err
  | .ok text => .ok (text ++ [0x0A])

/-! ## `encoding/json`: the decoder -/

/-- The function `isSpace` of the JSON scanner. -/
def isSpace (c : Nat) : Bool := c = 0x20 || c = 0x09 || c = 0x0D || c = 0x0A

/-- Skip insignificant whitespace. -/
def skipSpace : List Nat → List Nat
  | [] => []
  | c :: rest => if isSpace c then skipSpace rest else c :: rest

/-- The value of a hexadecimal digit, in either case. -/
def hexVal (c : Nat) : Option Nat :=
  if 0x30 ≤ c ∧ c ≤ 0x39 then some (c - 0x30)
  else if 0x61 ≤ c ∧ c ≤ 0x66 then some (c - 0x61 + 10)
  else if 0x41 ≤ c ∧ c ≤ 0x46 then some (c - 0x41 + 10)
  else none

/-- The function `getu4` of `encoding/json`: the value of a `\uXXXX` escape at
the start of `s`, or `none` (Go: -1) when there is none. -/
def getu4 : List Nat → Option Nat
  | s0 :: s1 :: c1 :: c2 :: c3 :: c4 :: _ =>
    if s0 ≠ 0x5C ∨ s1 ≠ 0x75 then none
    else
      match hexVal c1, hexVal c2, hexVal c3, hexVal c4 with
      | some d1, some d2, some d3, some d4 => some (((d1 * 16 + d2) * 16 + d3) * 16 + d4)
      | _, _, _, _ => none
  | _ => none

/-- The function `utf16.IsSurrogate`. -/
def IsSurrogate (r : Nat) : Bool := 0xD800 ≤ r && r < 0xE000

/-- The function `utf16.DecodeRune`: the rune of a surrogate pair, or U+FFFD
when the pair is not valid. -/
def utf16DecodeRune (r1 r2 : Nat) : Nat :=
  if 0xD800 ≤ r1 ∧ r1 < 0xDC00 ∧ 0xDC00 ≤ r2 ∧ r2 < 0xE000 then
    (((r1 - 0xD800) <<< 10) ||| (r2 - 0xDC00)) + 0x10000
  else RuneError

/-- Add decoded bytes in front of the outcome of the rest of a string literal. -/
def consBytes (bs : List Nat) : Option (GoString × List Nat) → Option (GoString × List Nat)
  | none => none
  | some (s, rest) => some (bs ++ s, rest)

/-- The escape after a backslash inside a JSON string literal (`rest` is the
input after the backslash): the bytes it stands for and the input after it;
`none` is a syntax error. A `\u` escape is read by `getu4`; a surrogate
followed by the escape of a matching low surrogate is one rune, any other
surrogate is U+FFFD. -/
def unquoteEscape (rest : List Nat) : Option (List Nat × List Nat) :=
  match rest with
  | [] => none
  | e :: rest2 =>
    if e = 0x22 ∨ e = 0x5C ∨ e = 0x2F then some ([e], rest2)
    else if e = 0x62 then some ([0x08], rest2)
    else if e = 0x66 then some ([0x0C], rest2)
    else if e = 0x6E then some ([0x0A], rest2)
    else if e = 0x72 then some ([0x0D], rest2)
    else if e = 0x74 then some ([0x09], rest2)
    else if e = 0x75 then
      match getu4 (0x5C :: rest) with
      | none => none
      | some rr =>
        if IsSurrogate rr then
          match getu4 (rest2.drop 4) with
          | none => some (EncodeRune RuneError, rest2.drop 4)
          | some rr1 =>
            if utf16DecodeRune rr rr1 ≠ RuneError then
              some (EncodeRune (utf16DecodeRune rr rr1), (rest2.drop 4).drop 6)
            else some (EncodeRune RuneError, rest2.drop 4)
        else some (EncodeRune rr, rest2.drop 4)
    else none

/-- A JSON string literal after its opening quote: the scanner's string states
and `unquoteBytes` in one pass. The result is the Go string the literal stands
for and the input after the closing quote; `none` is a syntax error (a control
character, a bad escape, or no closing quote). Escapes are decoded and every
invalid UTF-8 byte becomes U+FFFD. Each round consumes at least one byte, so
fuel above the length of the input is enough. -/
def unquoteLoop : Nat → List Nat → Option (GoString × List Nat)
  | 0, _ => none
  | _, [] => none
  | fuel + 1, c :: rest =>
    if c = 0x22 then some ([], rest)
    else if c = 0x5C then
      match unquoteEscape rest with
      | none => none
      | some (bs, rest2) => consBytes bs (unquoteLoop fuel rest2)
    else if c < 0x20 then none
    else if c < RuneSelf then consBytes [c] (unquoteLoop fuel rest)
    else
      consBytes (EncodeRune (DecodeRune (c :: rest)).1)
        (unquoteLoop fuel ((c :: rest).drop (DecodeRune (c :: rest)).2))

/-- A JSON string literal after its opening quote. -/
def unquote (s : List Nat) : Option (GoString × List Nat) := unquoteLoop (s.length + 1) s

/-- Test for an ASCII digit. -/
def isDigit (c : Nat) : Bool := 0x30 ≤ c && c ≤ 0x39

/-- The digits at the start of the input, and what follows them. -/
def spanDigits : List Nat → List Nat × List Nat
  | [] => ([], [])
  | c :: rest =>
    if isDigit c then ((c :: (spanDigits rest).1), (spanDigits rest).2) else ([], c :: rest)

/-- The exponent part of a JSON number, if there is one. -/
def scanExponent (s : List Nat) : Option (List Nat × List Nat) :=
  match s with
  | e :: rest =>
    if e = 0x65 ∨ e = 0x45 then
      match rest with
      | sign :: rest2 =>
        if sign = 0x2B ∨ sign = 0x2D then
          if (spanDigits rest2).1 = [] then none
          else some (e :: sign :: (spanDigits rest2).1, (spanDigits rest2).2)
        else if (spanDigits rest).1 = [] then none
        else some (e :: (spanDigits rest).1, (spanDigits rest).2)
      | [] => none
    else some ([], s)
  | [] => some ([], s)

/-- The fraction part of a JSON number, if there is one. -/
def scanFraction (s : List Nat) : Option (List Nat × List Nat) :=
  match s with
  | 0x2E :: rest =>
    if (spanDigits rest).1 = [] then none
    else some (0x2E :: (spanDigits rest).1, (spanDigits rest).2)
  | _ => some ([], s)

/-- The integer part of a JSON number: `0`, or a nonzero digit and more digits. -/
def scanInteger (s : List Nat) : Option (List Nat × List Nat) :=
  match s with
  | 0x30 :: rest => some ([0x30], rest)
  | c :: rest => if isDigit c then some (c :: (spanDigits rest).1, (spanDigits rest).2) else none
  | [] => none

/-- A JSON number literal as the scanner reads it: its text and the input after
it. -/
def scanNumber (s : List Nat) : Option (List Nat × List Nat) :=
  let neg : List Nat := match s with | 0x2D :: _ => [0x2D] | _ => []
  match scanInteger (s.drop neg.length) with
  | none => none
  | some (int, r1) =>
    match scanFraction r1 with
    | none => none
    | some (frac, r2) =>
      match scanExponent r2 with
      | none => none
      | some (exp, r3) => some (neg ++ int ++ frac ++ exp, r3)

/-- The scanner's limit on nested arrays and objects. -/
def maxNestingDepth : Nat := 10000

/-- The input after the bytes `lit`, when the input starts with them. -/
def expectBytes : List Nat → List Nat → Option (List Nat)
  | [], s => some s
  | _ :: _, [] => none
  | l :: lit, c :: s => if c = l then expectBytes lit s else none

/-- The literal `name` standing for `v`, after its first byte. -/
def parseLiteral (name : List Nat) (v : JsonValue) (rest : List Nat) :
    Option (JsonValue × List Nat) :=
  match expectBytes name rest with
  | none => none
  | some rest2 => some (v, rest2)

/-- A number literal as a JSON value. -/
def parseNumber (s : List Nat) : Option (JsonValue × List Nat) :=
  match scanNumber s with
  | none => none
  | some (lit, rest) => some (.number lit, rest)

/-- A string literal, after its opening quote, as a JSON value. -/
def parseString (rest : List Nat) : Option (JsonValue × List Nat) :=
  match unquote rest with
  | none => none
  | some (str, rest2) => some (.string str, rest2)

/-- Whether the input starts with the byte `c`. -/
def startsWith (c : Nat) (s : List Nat) : Bool :=
  match s with
  | [] => false
  | d :: _ => d = c

mutual
/-- One JSON value at the start of the input (whitespace already skipped) and
the input after it; `none` is a syntax error. `depth` counts the arrays and
objects that are open. Every call spends one unit of fuel; twice the length of
the input is enough. -/
def parseValue : Nat → Nat → List Nat → Option (JsonValue × List Nat)
  | 0, _, _ => none
  | _, _, [] => none
  | fuel + 1, depth, c :: rest =>
    if c = 0x7B then
      if depth + 1 > maxNestingDepth then none
      else if startsWith 0x7D (skipSpace rest) then some (.object [], (skipSpace rest).drop 1)
      else
        match parseMembers fuel (depth + 1) (skipSpace rest) with
        | none => none
        | some (ms, rest3) => some (.object ms, rest3)
    else if c = 0x5B then
      if depth + 1 > maxNestingDepth then none
      else if startsWith 0x5D (skipSpace rest) then some (.array [], (skipSpace rest).drop 1)
      else
        match parseElements fuel (depth + 1) (skipSpace rest) with
        | none => none
        | some (vs, rest3) => some (.array vs, rest3)
    else if c = 0x22 then parseString rest
    else if c = 0x74 then parseLiteral (ascii "rue") (.bool true) rest
    else if c = 0x66 then parseLiteral (ascii "alse") (.bool false) rest
    else if c = 0x6E then parseLiteral (ascii "ull") .null rest
    else parseNumber (c :: rest)
/-- The elements of a nonempty array, from the start of an element up to and
including the closing bracket. -/
def parseElements : Nat → Nat → List Nat → Option (List JsonValue × List Nat)
  | 0, _, _ => none
  | fuel + 1, depth, s =>
    match parseValue fuel depth s with
    | none => none
    | some (v, rest) =>
      if startsWith 0x2C (skipSpace rest) then
        match parseElements fuel depth (skipSpace ((skipSpace rest).drop 1)) with
        | none => none
        | some (vs, rest3) => some (v :: vs, rest3)
      else if startsWith 0x5D (skipSpace rest) then some ([v], (skipSpace rest).drop 1)
      else none
/-- The members of a nonempty object, from the opening quote of a key up to and
including the closing brace. -/
def parseMembers : Nat → Nat → List Nat → Option (List (GoString × JsonValue) × List Nat)
  | 0, _, _ => none
  | fuel + 1, depth, s =>
    if startsWith 0x22 s then
      match unquote (s.drop 1) with
      | none => none
      | some (key, rest1) =>
        if startsWith 0x3A (skipSpace rest1) then
          match parseValue fuel depth (skipSpace ((skipSpace rest1).drop 1)) with
          | none => none
          | some (v, rest3) =>
            if startsWith 0x2C (skipSpace rest3) then
              match parseMembers fuel depth (skipSpace ((skipSpace rest3).drop 1)) with
              | none => none
              | some (ms, rest5) => some ((key, v) :: ms, rest5)
            else if startsWith 0x7D (skipSpace rest3) then
              some ([(key, v)], (skipSpace rest3).drop 1)
            else none
        else none
    else none
end

/-- A whole JSON document, as `checkValid` accepts it: whitespace, one value,
whitespace; `none` is a syntax error. -/
def parseDocument (data : List Nat) : Option JsonValue :=
  match parseValue (2 * data.length + 2) 0 (skipSpace data) with
  | none => none
  | some (v, rest) => if skipSpace rest = [] then some v else none

/-- The loop of `appendFoldedName` of `encoding/json` as far as it decides a
match with an ASCII field name: ASCII letters go to upper case, and so do the
two runes outside ASCII whose case orbit reaches ASCII, U+017F (to `S`) and
U+212A (to `K`); every other rune is kept. -/
def foldNameLoop : Nat → List Nat → List Nat
  | _, [] => []
  | 0, _ :: _ => []
  | fuel + 1, c :: rest =>
    if c < RuneSelf then
      (if 0x61 ≤ c ∧ c ≤ 0x7A then c - 0x20 else c) :: foldNameLoop fuel rest
    else
      let r := (DecodeRune (c :: rest)).1
      let n := (DecodeRune (c :: rest)).2
      (if r = 0x17F then [0x53] else if r = 0x212A then [0x4B] else EncodeRune r)
        ++ foldNameLoop fuel ((c :: rest).drop n)

/-- The function `foldName` of `encoding/json`. -/
def foldName (name : GoString) : GoString := foldNameLoop name.length name

/-- The field that an object key selects: the field with exactly that name,
else the first field whose name matches under case folding, else none (the
member is skipped). -/
def findField (names : List GoString) (key : GoString) : Option GoString :=
  match names.find? (fun n => n = key) with
  | some n => some n
  | none => names.find? (fun n => foldName n = foldName key)

/-- Decode a JSON value into a `string`: a JSON string is stored, `null` leaves
the target as it is, anything else is an `UnmarshalTypeError` (`none`). -/
def decodeString (v : JsonValue) (old : GoString) : Option GoString :=
  match v with
  | .string s => some s
  | .null => some old
  | _ => none

/-- Decode the members of a JSON object into an `openAIMessage`, in order. -/
def decodeMessageMembers : List (GoString × JsonValue) → openAIMessage → Option openAIMessage
  | [], m => some m
  | (key, v) :: rest, m =>
    match findField [ascii "role", ascii "content"] key with
    | none => decodeMessageMembers rest m
    | some f =>
      if f = ascii "role" then
        match decodeString v m.Role with
        | none => none
        | some s => decodeMessageMembers rest { m with Role := s }
      else
        match decodeString v m.Content with
        | none => none
        | some s => decodeMessageMembers rest { m with Content := s }

/-- Decode a JSON value into an `openAIMessage`. -/
def decodeMessage (v : JsonValue) (old : openAIMessage) : Option openAIMessage :=
  match v with
  | .object ms => decodeMessageMembers ms old
  | .null => some old
  | _ => none

/-- Decode the elements of a JSON array into a `[]openAIMessage`: element `i`
is decoded into the element the slice already has at `i`, or into a zero value
when the slice is shorter. -/
def decodeMessageElems : List JsonValue → List openAIMessage → Option (List openAIMessage)
  | [], _ => some []
  | v :: vs, old =>
    match decodeMessage v (old.headD { Role := [], Content := [] }) with
    | none => none
    | some m =>
      match decodeMessageElems vs old.tail with
      | none => none
      | some ms => some (m :: ms)

/-- Decode a JSON value into a `[]openAIMessage`: an array gives a non-nil
slice of its elements, `null` gives the nil slice. -/
def decodeMessages (v : JsonValue) (old : Option (List openAIMessage)) :
    Option (Option (List openAIMessage)) :=
  match v with
  | .array vs =>
    match decodeMessageElems vs (old.getD []) with
    | none => none
    | some ms => some (some ms)
  | .null => some none
  | _ => none

/-- Decode the members of a JSON object into an `openAIChatRequest`, in order. -/
def decodeRequestMembers :
    List (GoString × JsonValue) → openAIChatRequest → Option openAIChatRequest
  | [], r => some r
  | (key, v) :: rest, r =>
    match findField [ascii "model", ascii "messages"] key with
    | none => decodeRequestMembers rest r
    | some f =>
      if f = ascii "model" then
        match decodeString v r.Model with
        | none => none
        | some s => decodeRequestMembers rest { r with Model := s }
      else
        match decodeMessages v r.Messages with
        | none => none
        | some ms => decodeRequestMembers rest { r with Messages := ms }

/-- The function `json.Unmarshal` into a zero `openAIChatRequest`: the decoded
value, or `none` when `Unmarshal` returns an error (a syntax error anywhere in
the document, or a value of the wrong JSON type for its field). Unknown
members are skipped and `null` leaves a field as it is. -/
def unmarshalOpenAIChatRequest (data : List Nat) : Option openAIChatRequest :=
  match parseDocument data with
  | none => none
  | some (.object ms) => decodeRequestMembers ms { Model := [], Messages := none }
  | some .null => some { Model := [], Messages := none }
  | some _ => none

/-! ## Coercion to valid UTF-8 -/

/-- The loop of `coerceUTF8`: a valid rune is kept, an invalid byte is replaced
by the encoding of U+FFFD. -/
def toValidLoop : Nat → List Nat → List Nat
  | _, [] => []
  | 0, _ :: _ => []
  | fuel + 1, b :: rest =>
    if (DecodeRune (b :: rest)).1 = RuneError ∧ (DecodeRune (b :: rest)).2 = 1 then
      EncodeRune RuneError ++ toValidLoop fuel rest
    else
      (b :: rest).take (DecodeRune (b :: rest)).2
        ++ toValidLoop fuel ((b :: rest).drop (DecodeRune (b :: rest)).2)

/-- A Go string coerced to valid UTF-8, as the documentation of `json.Marshal`
describes it: every invalid byte is replaced by the Unicode replacement rune. -/
def coerceUTF8 (s : GoString) : GoString := toValidLoop s.length s

/-- An `openAIMessage` with its strings coerced to valid UTF-8. -/
def coerceMessage (m : openAIMessage) : openAIMessage :=
  { Role := coerceUTF8 m.Role, Content := coerceUTF8 m.Content }

/-- An `openAIChatRequest` with its strings coerced to valid UTF-8. -/
def coerceRequest (r : openAIChatRequest) : openAIChatRequest :=
  { Model := coerceUTF8 r.Model,
    Messages := match r.Messages with
      | none => none
      | some ms => some (ms.map coerceMessage) }

/-! ## The JSON trees of the request type -/

/-- The JSON tree that the encoding of an `openAIMessage` parses to. -/
def messageTree (m : openAIMessage) : JsonValue :=
  .object [(ascii "role", .string m.Role), (ascii "content", .string m.Content)]

/-- The JSON tree that the encoding of a `[]openAIMessage` parses to. -/
def messagesTree : Option (List openAIMessage) → JsonValue
  | none => .null
  | some ms => .array (ms.map messageTree)

/-! ## `net/http` and the world outside -/

/-- The table `isTokenTable` of `httpguts`: the bytes allowed in an HTTP
method. -/
def isTokenByte (b : Nat) : Bool :=
  b = 0x21 || b = 0x23 || b = 0x24 || b = 0x25 || b = 0x26 || b = 0x27 || b = 0x2A
    || b = 0x2B || b = 0x2D || b = 0x2E || (0x30 ≤ b && b ≤ 0x39) || (0x41 ≤ b && b ≤ 0x5A)
    || b = 0x5E || b = 0x5F || b = 0x60 || (0x61 ≤ b && b ≤ 0x7A) || b = 0x7C || b = 0x7E

/-- The function `validMethod` of `net/http`: nonempty and made of token
bytes only. -/
def validMethod (method : GoString) : Bool :=
  method.length > 0 && method.all isTokenByte

/-- An `*http.Request` as far as `bearerHttpRequest` sets it: the method, the
URL text, the header lines in the order they were added, and the body. -/
structure HttpRequest where
  Method : GoString
  URL : GoString
  Header : List (GoString × GoString)
  Body : List Nat
  deriving DecidableEq

/-- What `http.DefaultClient.Do` gives back: an error, or a response with its
status code, the bytes `io.ReadAll` reads from its body and the error of that
read (`none` when the body was read in full). -/
inductive DoResult where
  | err (e : GoError)
  | response (StatusCode : Int) (body : List Nat) (readErr : Option GoError)

/-- The world outside the program: `urlParse` is the error of `url.Parse` on a
URL text (`none` when it parses), `Do` is the answer of the network to a
request, which may depend on the requests sent before it. -/
structure Env where
  urlParse : GoString → Option GoError
  Do : List HttpRequest → HttpRequest → DoResult

/-- The function `http.NewRequest`: an empty method stands for GET, an invalid
method or an unparsable URL is an error, otherwise the request carries the
method, the URL and the body, and an empty header. -/
def NewRequest (env : Env) (method url : GoString) (body : List Nat) :
    Except GoError HttpRequest :=
  let method := if method = [] then ascii "GET" else method
  if !validMethod method then .error (.invalidMethod method)
  else
    match env.urlParse url with
    | some err => .error err
    | none => .ok { Method := method, URL := url, Header := [], Body := body }

/-- The method `Header.Add` for a key already in canonical form: one more
header line. -/
def HttpRequest.HeaderAdd (req : HttpRequest) (key value : GoString) : HttpRequest :=
  { req with Header := req.Header ++ [(key, value)] }

/-- One entry of the zerolog logger: the error, the string fields, whether the
request object was attached under `obj`, and the message. -/
structure LogEntry where
  err : GoError
  strs : List (GoString × GoString)
  obj : Bool
  msg : GoString
  deriving DecidableEq

/-- The observable effects so far: the requests handed to `http.DefaultClient.Do`
and the log entries written, oldest first. -/
structure World where
  sent : List HttpRequest
  logs : List LogEntry
  deriving DecidableEq

/-- Write one log entry. -/
def World.log (w : World) (e : LogEntry) : World := { w with logs := w.logs ++ [e] }

/-- The string `fmt.Sprintf("%d", n)`. -/
def formatInt (n : Int) : GoString := ascii (toString n)

/-! ## `llm.go`: the transport -/

/-- The function `bearerHttpRequest`. `marshal` and `unmarshal` are `json.Marshal`
and `json.Unmarshal` at the types of `jsonReq` and of the target behind
`jsonResPtr`; `jsonRes` is the target before the call. The result is the
returned error, the target after the call and the world after the call. -/
def bearerHttpRequest {α β : Type} (env : Env)
    (marshal : α → Except GoError (List Nat))
    (unmarshal : List Nat → β → Option GoError × β)
    (token url method : GoString) (jsonReq : α) (jsonRes : β) (w : World) :
    Option GoError × β × World :=
  -- Construct request
  match EncoderEncode marshal jsonReq with
  | .error err =>
    (some err, jsonRes,
      w.log ⟨err, [(ascii "url", url)], true, ascii "could not marshal json for request"⟩)
  | .ok buf =>
  match NewRequest env method url buf with
  | .error err =>
    (some err, jsonRes, w.log ⟨err, [(ascii "url", url)], false, ascii "bearer http request failed"⟩)
  | .ok req0 =>
  let req := (req0.HeaderAdd (ascii "Authorization") (ascii "Bearer " ++ token)).HeaderAdd
    (ascii "Content-Type") (ascii "application/json")
  -- Make the request
  let w1 : World := { w with sent := w.sent ++ [req] }
  match env.Do w.sent req with
  | .err err =>
    (some err, jsonRes, w1.log ⟨err, [(ascii "url", url)], false, ascii "request init failed"⟩)
  | .response StatusCode resBody readErr =>
  -- Non 2xx we take as an error
  if StatusCode < 200 ∨ StatusCode > 299 then
    let err := GoError.errorf (ascii "non 2xx status: " ++ formatInt StatusCode)
    (some err, jsonRes, w1.log ⟨err, [(ascii "url", url)], false, ascii "non 2xx response"⟩)
  else
  -- Read the response
  match readErr with
  | some err =>
    (some err, jsonRes,
      w1.log ⟨err, [(ascii "url", url)], false, ascii "failed to read response body"⟩)
  | none =>
  match unmarshal resBody jsonRes with
  | (some err, res) =>
    (some err, res,
      w1.log ⟨err, [(ascii "url", url), (ascii "response_body", resBody)], false,
        ascii "failed to unmarshal response body"⟩)
  | (none, res) => (none, res, w1)

/-! ## `llm.go`: the chat model -/

/-- The constant `http.MethodPost`. -/
def MethodPost : GoString := ascii "POST"

/-- The URL that `Generate` posts to. -/
def chatCompletionsURL : GoString := ascii "https://api.openai.com/v1/chat/completions"

/-- What a call of `Generate` ends in: a return of `(string, error)`, or the
runtime panic of an index out of range. -/
inductive GenerateResult where
  | ret (s : GoString) (err : Option GoError)
  | panicIndexOutOfRange (index length : Nat)
  deriving DecidableEq

/-- Lines 70 to 84 of `Generate`: the value of `openAIReq` handed to
`bearerHttpRequest`. The slice starts nil and grows by one `append` per system
message and one for the user prompt. -/
def Generate_openAIReq (oai : OpenAIChatModel) (userPrompt : GoString) : openAIChatRequest :=
  let openAIMessages : List openAIMessage :=
    oai.systemMessages.foldl
      (fun acc msg => acc ++ [{ Role := ascii "system", Content := msg }]) []
  let openAIMessages := openAIMessages ++ [{ Role := ascii "user", Content := userPrompt }]
  { Model := oai.model, Messages := some openAIMessages }

/-- The method `(*OpenAIChatModel).Generate`. `unmarshal` is `json.Unmarshal` at
`*openAiChatResponse`. The result is what the call ends in, the receiver after
the call and the world after the call. -/
def Generate (env : Env)
    (unmarshal : List Nat → openAiChatResponse → Option GoError × openAiChatResponse)
    (oai : OpenAIChatModel) (userPrompt : GoString) (w : World) :
    GenerateResult × OpenAIChatModel × World :=
  -- Create request
  let openAIReq := Generate_openAIReq oai userPrompt
  -- Make the request
  let r := bearerHttpRequest env (fun v => .ok (marshalOpenAIChatRequest v)) unmarshal
    oai.apiKey chatCompletionsURL MethodPost openAIReq openAiChatResponse.zero w
  match r.1 with
  | some err => (.ret [] (some err), oai, r.2.2)
  | none =>
    -- Get the first choice
    match r.2.1.Choices[0]? with
    | none => (.panicIndexOutOfRange 0 r.2.1.Choices.length, oai, r.2.2)
    | some choice => (.ret choice.Message.Content none, oai, r.2.2)

/-- The function `NewGPT4oModel`. -/
def NewGPT4oModel (apiKey : GoString) (systemMessages : List GoString) : OpenAIChatModel :=
  { model := ascii "gpt-4o", apiKey := apiKey, systemMessages := systemMessages }

/-! ## Worlds and decoders for concrete runs -/

/-- A world outside in which every URL parses and the network answers every
request with the given status code and body. -/
def Env.answering (status : Int) (body : List Nat) : Env :=
  { urlParse := fun _ => none, Do := fun _ _ => .response status body none }

/-- A response decoder given as a table from bodies to decoded values; a body
outside the table is an error. -/
def unmarshalTable (table : List (List Nat × openAiChatResponse)) :
    List Nat → openAiChatResponse → Option GoError × openAiChatResponse :=
  fun data res =>
    match table.lookup data with
    | some v => (none, v)
    | none => (some (.lib (ascii "unexpected end of JSON input")), res)

/-- A response whose choices carry the given contents, all other fields zero. -/
def responseWithChoices (contents : List GoString) : openAiChatResponse :=
  { openAiChatResponse.zero with
    Choices := contents.map (fun c =>
      { Index := 0, Message := { Role := [], Content := c }, Logprobs := .null,
        FinishReason := [] }) }

/-- The function `json.Unmarshal` into an `openAIChatRequest`, in the shape
`bearerHttpRequest` takes a decoder: no error and the decoded target, or an
error with the target as it was (what a failing decode leaves in the target is
not modelled). -/
def unmarshalRequestTarget (data : List Nat) (old : openAIChatRequest) :
    Option GoError × openAIChatRequest :=
  match parseDocument data with
  | none => (some (.lib (ascii "json: syntax error")), old)
  | some (.object ms) =>
    match decodeRequestMembers ms old with
    | some r => (none, r)
    | none => (some (.lib (ascii "json: cannot unmarshal")), old)
  | some .null => (none, old)
  | some _ => (some (.lib (ascii "json: cannot unmarshal")), old)

/-- A response body with two choices. -/
def twoChoicesBody : List Nat :=
  ascii ("\x7b\"choices\":[\x7b\"message\":\x7b\"content\":\"pong\"\x7d\x7d,"
    ++ "\x7b\"message\":\x7b\"content\":\"other\"\x7d\x7d]\x7d")

/-- A body that is valid JSON for an `openAIChatRequest` target. -/
def validRequestBody : List Nat := ascii "\x7b\"model\":\"m\",\"messages\":[]\x7d"

/-- A response body with an empty list of choices. -/
def emptyChoicesBody : List Nat := ascii "\x7b\"choices\": []\x7d"

/-- The empty world: nothing sent, nothing logged. -/
def World.empty : World := { sent := [], logs := [] }

/-! # Properties -/

/-! ## `unicode/utf8`: encoding a decoded rune -/

theorem DecodeRune_take (s : List Nat) : DecodeRune (s.take UTFMax) = DecodeRune s := by
  rcases s with _ | ⟨a, _ | ⟨b, _ | ⟨c, _ | ⟨d, t⟩⟩⟩⟩ <;> simp [DecodeRune, UTFMax]

theorem lor_80 : ∀ y < 64, 0x80 ||| y = 0x80 + y := by decide
theorem lor_C0 : ∀ y < 32, 0xC0 ||| y = 0xC0 + y := by decide
theorem lor_E0 : ∀ y < 16, 0xE0 ||| y = 0xE0 + y := by decide
theorem lor_F0 : ∀ y < 8, 0xF0 ||| y = 0xF0 + y := by decide

theorem and_3F (x : Nat) : x &&& 0x3F = x % 64 := Nat.and_pow_two_sub_one_eq_mod x 6
theorem and_1F (x : Nat) : x &&& 0x1F = x % 32 := Nat.and_pow_two_sub_one_eq_mod x 5
theorem and_0F (x : Nat) : x &&& 0x0F = x % 16 := Nat.and_pow_two_sub_one_eq_mod x 4
theorem and_07 (x : Nat) : x &&& 0x07 = x % 8 := Nat.and_pow_two_sub_one_eq_mod x 3

theorem lor_shift (a b i : Nat) (h : b < 2 ^ i) : (a <<< i) ||| b = a * 2 ^ i + b := by
  rw [Nat.shiftLeft_eq, Nat.mul_comm a, ← Nat.mul_add_lt_is_or h]

theorem pack2 (a b : Nat) :
    ((a &&& 0x1F) <<< 6) ||| (b &&& 0x3F) = (a % 32) * 64 + b % 64 := by
  rw [and_1F, and_3F, lor_shift _ _ 6 (by omega)]
  omega

theorem pack3 (a b c : Nat) :
    ((a &&& 0x0F) <<< 12) ||| ((b &&& 0x3F) <<< 6) ||| (c &&& 0x3F)
      = (a % 16) * 4096 + (b % 64) * 64 + c % 64 := by
  rw [and_0F, and_3F, and_3F, Nat.shiftLeft_eq (b % 64) 6, lor_shift _ _ 12 (by omega)]
  have h : a % 16 * 2 ^ 12 + b % 64 * 2 ^ 6 = (a % 16 * 64 + b % 64) <<< 6 := by
    rw [Nat.shiftLeft_eq]; omega
  rw [h, lor_shift _ _ 6 (by omega)]
  omega

theorem pack4 (a b c d : Nat) :
    ((a &&& 0x07) <<< 18) ||| ((b &&& 0x3F) <<< 12) ||| ((c &&& 0x3F) <<< 6) ||| (d &&& 0x3F)
      = (a % 8) * 262144 + (b % 64) * 4096 + (c % 64) * 64 + d % 64 := by
  rw [and_07, and_3F, and_3F, and_3F, Nat.shiftLeft_eq (b % 64) 12, Nat.shiftLeft_eq (c % 64) 6,
    lor_shift _ _ 18 (by omega)]
  have h : a % 8 * 2 ^ 18 + b % 64 * 2 ^ 12 = (a % 8 * 64 + b % 64) <<< 12 := by
    rw [Nat.shiftLeft_eq]; omega
  rw [h, lor_shift _ _ 12 (by omega)]
  have h2 : (a % 8 * 64 + b % 64) * 2 ^ 12 + c % 64 * 2 ^ 6
      = ((a % 8 * 64 + b % 64) * 64 + c % 64) <<< 6 := by
    rw [Nat.shiftLeft_eq]; omega
  rw [h2, lor_shift _ _ 6 (by omega)]
  omega

theorem EncodeRune_2 (a b : Nat) (ha : 2 ≤ a) (ha2 : a < 32) (hb : b < 64) :
    EncodeRune (a * 64 + b) = [0xC0 + a, 0x80 + b] := by
  unfold EncodeRune
  rw [if_neg (by omega), if_pos (by omega)]
  rw [Nat.shiftRight_eq_div_pow, and_3F, lor_C0 _ (by omega), lor_80 _ (by omega)]
  congr 1
  · omega
  · congr 1; omega

theorem EncodeRune_3 (a b c : Nat) (ha : a < 16) (hb : b < 64) (hc : c < 64)
    (hlo : 0x800 ≤ a * 4096 + b * 64 + c)
    (hsur : a * 4096 + b * 64 + c < 0xD800 ∨ 0xDFFF < a * 4096 + b * 64 + c) :
    EncodeRune (a * 4096 + b * 64 + c) = [0xE0 + a, 0x80 + b, 0x80 + c] := by
  unfold EncodeRune
  rw [if_neg (by omega), if_neg (by omega), if_neg (by omega), if_pos (by omega)]
  rw [Nat.shiftRight_eq_div_pow, Nat.shiftRight_eq_div_pow, and_3F, and_3F,
    lor_E0 _ (by omega), lor_80 _ (by omega), lor_80 _ (by omega)]
  congr 1
  · omega
  · congr 1
    · omega
    · congr 1; omega

theorem EncodeRune_4 (a b c d : Nat) (_ha : a < 8) (hb : b < 64) (hc : c < 64) (hd : d < 64)
    (hlo : 0x10000 ≤ a * 262144 + b * 4096 + c * 64 + d)
    (hhi : a * 262144 + b * 4096 + c * 64 + d ≤ 0x10FFFF) :
    EncodeRune (a * 262144 + b * 4096 + c * 64 + d) = [0xF0 + a, 0x80 + b, 0x80 + c, 0x80 + d] := by
  unfold EncodeRune
  rw [if_neg (by omega), if_neg (by omega), if_neg (by omega), if_neg (by omega)]
  rw [Nat.shiftRight_eq_div_pow, Nat.shiftRight_eq_div_pow, Nat.shiftRight_eq_div_pow,
    and_3F, and_3F, and_3F,
    lor_F0 _ (by omega), lor_80 _ (by omega), lor_80 _ (by omega), lor_80 _ (by omega)]
  congr 1
  · omega
  · congr 1
    · omega
    · congr 1
      · omega
      · congr 1; omega

theorem DecodeRune_two (b s1 : Nat) (t : List Nat) (h1 : 0xC2 ≤ b) (h2 : b ≤ 0xDF) :
    DecodeRune (b :: s1 :: t) =
      if s1 < 0x80 ∨ 0xBF < s1 then (RuneError, 1) else ((b % 32) * 64 + s1 % 64, 2) := by
  have hlo : acceptLo b = 0x80 := by unfold acceptLo; rw [if_neg (by omega), if_neg (by omega)]
  have hhi : acceptHi b = 0xBF := by unfold acceptHi; rw [if_neg (by omega), if_neg (by omega)]
  simp only [DecodeRune]
  rw [if_neg (by omega), if_neg (by omega), if_pos h2]
  simp only [hlo, hhi, pack2]

theorem DecodeRune_three (b s1 s2 : Nat) (t : List Nat) (h1 : 0xE0 ≤ b) (h2 : b ≤ 0xEF) :
    DecodeRune (b :: s1 :: s2 :: t) =
      if s1 < acceptLo b ∨ acceptHi b < s1 then (RuneError, 1)
      else if s2 < 0x80 ∨ 0xBF < s2 then (RuneError, 1)
      else ((b % 16) * 4096 + (s1 % 64) * 64 + s2 % 64, 3) := by
  simp only [DecodeRune]
  rw [if_neg (by omega), if_neg (by omega), if_neg (by omega), if_pos h2]
  simp only [pack3, isCont]
  by_cases h3 : s1 < acceptLo b ∨ acceptHi b < s1
  · rw [if_pos h3, if_pos h3]
  · rw [if_neg h3, if_neg h3]
    by_cases h4 : s2 < 0x80 ∨ 0xBF < s2
    · rw [if_pos h4, if_pos]
      simp only [Bool.not_eq_true', Bool.and_eq_false_iff, decide_eq_false_iff_not]
      omega
    · rw [if_neg h4, if_neg]
      simp only [Bool.not_eq_true', Bool.and_eq_false_iff, decide_eq_false_iff_not]
      omega

theorem DecodeRune_four (b s1 s2 s3 : Nat) (t : List Nat) (h1 : 0xF0 ≤ b) (h2 : b ≤ 0xF4) :
    DecodeRune (b :: s1 :: s2 :: s3 :: t) =
      if s1 < acceptLo b ∨ acceptHi b < s1 then (RuneError, 1)
      else if s2 < 0x80 ∨ 0xBF < s2 then (RuneError, 1)
      else if s3 < 0x80 ∨ 0xBF < s3 then (RuneError, 1)
      else ((b % 8) * 262144 + (s1 % 64) * 4096 + (s2 % 64) * 64 + s3 % 64, 4) := by
  simp only [DecodeRune]
  rw [if_neg (by omega), if_neg (by omega), if_neg (by omega), if_neg (by omega), if_pos h2]
  simp only [pack4, isCont]
  by_cases h3 : s1 < acceptLo b ∨ acceptHi b < s1
  · rw [if_pos h3, if_pos h3]
  · rw [if_neg h3, if_neg h3]
    by_cases h4 : s2 < 0x80 ∨ 0xBF < s2
    · rw [if_pos h4, if_pos]
      simp only [Bool.not_eq_true', Bool.and_eq_false_iff, decide_eq_false_iff_not]
      omega
    · rw [if_neg h4, if_neg]
      · by_cases h5 : s3 < 0x80 ∨ 0xBF < s3
        · rw [if_pos h5, if_pos]
          simp only [Bool.not_eq_true', Bool.and_eq_false_iff, decide_eq_false_iff_not]
          omega
        · rw [if_neg h5, if_neg]
          simp only [Bool.not_eq_true', Bool.and_eq_false_iff, decide_eq_false_iff_not]
          omega
      · simp only [Bool.not_eq_true', Bool.and_eq_false_iff, decide_eq_false_iff_not]
        omega

theorem DecodeRune_short (b : Nat) (rest : List Nat) (hb : 0x80 ≤ b)
    (h : (b ≤ 0xDF ∧ rest.length < 1) ∨ (0xE0 ≤ b ∧ b ≤ 0xEF ∧ rest.length < 2)
      ∨ (0xF0 ≤ b ∧ rest.length < 3) ∨ b < 0xC2 ∨ 0xF4 < b) :
    DecodeRune (b :: rest) = (RuneError, 1) := by
  simp only [DecodeRune]
  rw [if_neg (by omega)]
  rcases rest with _ | ⟨s1, _ | ⟨s2, _ | ⟨s3, t⟩⟩⟩ <;> simp only [List.length_cons, List.length_nil] at h
  all_goals split_ifs <;> first | rfl | (exfalso; omega)

/-- A well-formed multi-byte encoding at the head of the input: its width is
between 2 and 4 and within the input, encoding the decoded rune gives back the
bytes, and the decoding does not depend on what follows them. -/
theorem DecodeRune_multibyte (b : Nat) (rest : List Nat) (hb : ¬ b < RuneSelf)
    (hv : ¬ ((DecodeRune (b :: rest)).1 = RuneError ∧ (DecodeRune (b :: rest)).2 = 1)) :
    2 ≤ (DecodeRune (b :: rest)).2
    ∧ (DecodeRune (b :: rest)).2 ≤ (b :: rest).length
    ∧ EncodeRune (DecodeRune (b :: rest)).1 = (b :: rest).take (DecodeRune (b :: rest)).2
    ∧ ∀ t, DecodeRune ((b :: rest).take (DecodeRune (b :: rest)).2 ++ t)
        = DecodeRune (b :: rest) := by
  simp only [RuneSelf] at hb
  have hbad : DecodeRune (b :: rest) ≠ (RuneError, 1) := by
    intro h; rw [h] at hv; exact hv ⟨rfl, rfl⟩
  by_cases h1 : b < 0xC2 ∨ 0xF4 < b
  · exact absurd (DecodeRune_short b rest (by omega) (by omega)) hbad
  by_cases h2 : b ≤ 0xDF
  · rcases rest with _ | ⟨s1, t1⟩
    · exact absurd (DecodeRune_short b [] (by omega) (by simp; omega)) hbad
    · rw [DecodeRune_two b s1 t1 (by omega) h2] at hbad ⊢
      by_cases h3 : s1 < 0x80 ∨ 0xBF < s1
      · rw [if_pos h3] at hbad; exact absurd rfl hbad
      · rw [if_neg h3]
        refine ⟨by simp, by simp, ?_, ?_⟩
        · rw [EncodeRune_2 (b % 32) (s1 % 64) (by omega) (by omega) (by omega)]
          simp only [List.take_succ_cons, List.take_zero]
          congr 1
          · omega
          · congr 1; omega
        · intro t
          simp only [List.take_succ_cons, List.take_zero, List.cons_append, List.nil_append]
          rw [DecodeRune_two b s1 t (by omega) h2, if_neg h3]
  by_cases h4 : b ≤ 0xEF
  · rcases rest with _ | ⟨s1, _ | ⟨s2, t2⟩⟩
    · exact absurd (DecodeRune_short b [] (by omega) (by simp; omega)) hbad
    · exact absurd (DecodeRune_short b [s1] (by omega) (by simp; omega)) hbad
    · rw [DecodeRune_three b s1 s2 t2 (by omega) h4] at hbad ⊢
      by_cases h3 : s1 < acceptLo b ∨ acceptHi b < s1
      · rw [if_pos h3] at hbad; exact absurd rfl hbad
      rw [if_neg h3] at hbad ⊢
      by_cases h5 : s2 < 0x80 ∨ 0xBF < s2
      · rw [if_pos h5] at hbad; exact absurd rfl hbad
      rw [if_neg h5]
      have hlo : 0x80 ≤ acceptLo b ∧ (b = 0xE0 → acceptLo b = 0xA0) := by
        unfold acceptLo; split_ifs <;> omega
      have hhi : acceptHi b ≤ 0xBF ∧ (b = 0xED → acceptHi b = 0x9F) := by
        unfold acceptHi; split_ifs <;> omega
      refine ⟨by simp, by simp, ?_, ?_⟩
      · rw [EncodeRune_3 (b % 16) (s1 % 64) (s2 % 64) (by omega) (by omega) (by omega)
          (by omega) (by omega)]
        simp only [List.take_succ_cons, List.take_zero]
        congr 1
        · omega
        · congr 1
          · omega
          · congr 1; omega
      · intro t
        simp only [List.take_succ_cons, List.take_zero, List.cons_append, List.nil_append]
        rw [DecodeRune_three b s1 s2 t (by omega) h4, if_neg h3, if_neg h5]
  · rcases rest with _ | ⟨s1, _ | ⟨s2, _ | ⟨s3, t3⟩⟩⟩
    · exact absurd (DecodeRune_short b [] (by omega) (by simp; omega)) hbad
    · exact absurd (DecodeRune_short b [s1] (by omega) (by simp; omega)) hbad
    · exact absurd (DecodeRune_short b [s1, s2] (by omega) (by simp; omega)) hbad
    · rw [DecodeRune_four b s1 s2 s3 t3 (by omega) (by omega)] at hbad ⊢
      by_cases h3 : s1 < acceptLo b ∨ acceptHi b < s1
      · rw [if_pos h3] at hbad; exact absurd rfl hbad
      rw [if_neg h3] at hbad ⊢
      by_cases h5 : s2 < 0x80 ∨ 0xBF < s2
      · rw [if_pos h5] at hbad; exact absurd rfl hbad
      rw [if_neg h5] at hbad ⊢
      by_cases h6 : s3 < 0x80 ∨ 0xBF < s3
      · rw [if_pos h6] at hbad; exact absurd rfl hbad
      rw [if_neg h6]
      have hlo : 0x80 ≤ acceptLo b ∧ (b = 0xF0 → acceptLo b = 0x90) := by
        unfold acceptLo; split_ifs <;> omega
      have hhi : acceptHi b ≤ 0xBF ∧ (b = 0xF4 → acceptHi b = 0x8F) := by
        unfold acceptHi; split_ifs <;> omega
      refine ⟨by simp, by simp, ?_, ?_⟩
      · rw [EncodeRune_4 (b % 8) (s1 % 64) (s2 % 64) (s3 % 64) (by omega) (by omega) (by omega)
          (by omega) (by omega) (by omega)]
        simp only [List.take_succ_cons, List.take_zero]
        congr 1
        · omega
        · congr 1
          · omega
          · congr 1
            · omega
            · congr 1; omega
      · intro t
        simp only [List.take_succ_cons, List.take_zero, List.cons_append, List.nil_append]
        rw [DecodeRune_four b s1 s2 s3 t (by omega) (by omega), if_neg h3, if_neg h5, if_neg h6]

theorem DecodeRune_ascii (b : Nat) (rest : List Nat) (hb : b < RuneSelf) :
    DecodeRune (b :: rest) = (b, 1) := by
  simp only [RuneSelf] at hb
  simp only [DecodeRune]
  rw [if_pos hb]

/-! ## Reading back a string literal -/

theorem unquoteLoop_quote (f : Nat) (t : List Nat) :
    unquoteLoop (f + 1) (0x22 :: t) = some ([], t) := by
  rw [unquoteLoop, if_pos rfl]

theorem unquoteLoop_plain (f c : Nat) (t : List Nat) (h1 : c ≠ 0x22) (h2 : c ≠ 0x5C)
    (h3 : ¬ c < 0x20) (h4 : c < RuneSelf) :
    unquoteLoop (f + 1) (c :: t) = consBytes [c] (unquoteLoop f t) := by
  rw [unquoteLoop, if_neg h1, if_neg h2, if_neg h3, if_pos h4]

theorem unquoteLoop_multibyte (f c : Nat) (t : List Nat) (h4 : ¬ c < RuneSelf) :
    unquoteLoop (f + 1) (c :: t) =
      consBytes (EncodeRune (DecodeRune (c :: t)).1)
        (unquoteLoop f ((c :: t).drop (DecodeRune (c :: t)).2)) := by
  have h5 : ¬ c < 0x80 := h4
  rw [unquoteLoop, if_neg (by omega), if_neg (by omega), if_neg (by omega), if_neg h4]

theorem unquoteLoop_backslash (f : Nat) (t : List Nat) :
    unquoteLoop (f + 1) (0x5C :: t) =
      match unquoteEscape t with
      | none => none
      | some (bs, rest2) => consBytes bs (unquoteLoop f rest2) := by
  rw [unquoteLoop, if_neg (by decide), if_pos rfl]

theorem hex_digits : ∀ b < 128,
    hexVal (hex (b >>> 4)) = some (b >>> 4) ∧ hexVal (hex (b &&& 0xF)) = some (b &&& 0xF)
    ∧ (b >>> 4) * 16 + (b &&& 0xF) = b := by
  decide

theorem getu4_escape (b : Nat) (hb : b < 128) (t : List Nat) :
    getu4 (0x5C :: 0x75 :: 0x30 :: 0x30 :: hex (b >>> 4) :: hex (b &&& 0xF) :: t) = some b := by
  obtain ⟨h1, h2, h3⟩ := hex_digits b hb
  have h0 : hexVal 0x30 = some 0 := by decide
  simp only [getu4, h0, h1, h2]
  rw [if_neg (by decide)]
  simp only [Nat.zero_mul, Nat.zero_add, h3]

theorem EncodeRune_ascii (b : Nat) (hb : b < 128) : EncodeRune b = [b] := by
  unfold EncodeRune
  rw [if_pos (by omega)]
  congr 1
  omega

theorem unquoteLoop_escapeByte (f b : Nat) (t : List Nat) (hb : b < RuneSelf) :
    unquoteLoop (f + 1) (escapeByte b ++ t) = consBytes [b] (unquoteLoop f t) := by
  simp only [RuneSelf] at hb
  unfold escapeByte
  by_cases h1 : b = 0x5C ∨ b = 0x22
  · rw [if_pos h1]
    rcases h1 with h | h <;> subst h <;>
      (rw [List.cons_append, unquoteLoop_backslash]; simp [unquoteEscape])
  rw [if_neg h1]
  by_cases h2 : b = 0x08
  · subst h2
    rw [if_pos rfl, List.cons_append, unquoteLoop_backslash]; simp [unquoteEscape]
  rw [if_neg h2]
  by_cases h3 : b = 0x0C
  · subst h3
    rw [if_pos rfl, List.cons_append, unquoteLoop_backslash]; simp [unquoteEscape]
  rw [if_neg h3]
  by_cases h4 : b = 0x0A
  · subst h4
    rw [if_pos rfl, List.cons_append, unquoteLoop_backslash]; simp [unquoteEscape]
  rw [if_neg h4]
  by_cases h5 : b = 0x0D
  · subst h5
    rw [if_pos rfl, List.cons_append, unquoteLoop_backslash]; simp [unquoteEscape]
  rw [if_neg h5]
  by_cases h6 : b = 0x09
  · subst h6
    rw [if_pos rfl, List.cons_append, unquoteLoop_backslash]; simp [unquoteEscape]
  rw [if_neg h6]
  have hsur : IsSurrogate b = false := by
    simp only [IsSurrogate, Bool.and_eq_false_iff, decide_eq_false_iff_not]; omega
  rw [List.cons_append, unquoteLoop_backslash]
  simp only [List.cons_append, List.nil_append, unquoteEscape]
  rw [if_pos trivial, getu4_escape b hb]
  simp only [hsur, Bool.false_eq_true, if_false, EncodeRune_ascii b hb]
  rfl

theorem unquoteLoop_lineSep (f c : Nat) (t : List Nat) (hc : c = 0x2028 ∨ c = 0x2029) :
    unquoteLoop (f + 1) (ascii "\\u202" ++ [hex (c &&& 0xF)] ++ t)
      = consBytes (EncodeRune c) (unquoteLoop f t) := by
  have ha : ascii "\\u202" = [0x5C, 0x75, 0x32, 0x30, 0x32] := by decide
  have h8 : getu4 [0x5C, 0x75, 0x32, 0x30, 0x32, hex (0x2028 &&& 0xF)] = some 0x2028 := by decide
  have h9 : getu4 [0x5C, 0x75, 0x32, 0x30, 0x32, hex (0x2029 &&& 0xF)] = some 0x2029 := by decide
  have g : ∀ a b c d e f t, getu4 (a :: b :: c :: d :: e :: f :: t) = getu4 [a, b, c, d, e, f] := by
    intro a b c d e f t
    simp only [getu4]
  rw [ha]
  simp only [List.cons_append, List.nil_append]
  rw [unquoteLoop_backslash]
  simp only [unquoteEscape]
  rw [if_pos trivial, g]
  rcases hc with h | h <;> subst h
  · rw [h8]; rfl
  · rw [h9]; rfl

theorem escapeByte_length (b : Nat) : 2 ≤ (escapeByte b).length := by
  unfold escapeByte
  split_ifs <;> simp

theorem consBytes_some (bs s rest : List Nat) :
    consBytes bs (some (s, rest)) = some (bs ++ s, rest) := rfl

theorem unquoteLoop_replacement (f : Nat) (t : List Nat) :
    unquoteLoop (f + 1) (ascii "\\ufffd" ++ t)
      = consBytes (EncodeRune RuneError) (unquoteLoop f t) := by
  have ha : ascii "\\ufffd" = [0x5C, 0x75, 0x66, 0x66, 0x66, 0x64] := by decide
  have h8 : getu4 [0x5C, 0x75, 0x66, 0x66, 0x66, 0x64] = some RuneError := by decide
  have g : ∀ a b c d e f t, getu4 (a :: b :: c :: d :: e :: f :: t) = getu4 [a, b, c, d, e, f] := by
    intro a b c d e f t
    simp only [getu4]
  rw [ha]
  simp only [List.cons_append, List.nil_append]
  rw [unquoteLoop_backslash]
  simp only [unquoteEscape]
  rw [if_pos trivial, g, h8]
  rfl

/-- Reading back a string literal written by `appendString`: the decoder returns
the encoded string coerced to valid UTF-8. -/
theorem unquoteLoop_appendStringLoop : ∀ (n : Nat) (s : List Nat), s.length ≤ n →
    ∀ (fuel : Nat) (rest : List Nat),
    (appendStringLoop n s).length < fuel →
    unquoteLoop fuel (appendStringLoop n s ++ 0x22 :: rest) = some (toValidLoop n s, rest) := by
  intro n
  induction n with
  | zero =>
    intro s hlen fuel rest hfuel
    have hs : s = [] := List.length_eq_zero.mp (by omega)
    subst hs
    obtain ⟨f, rfl⟩ : ∃ f, fuel = f + 1 := ⟨fuel - 1, by omega⟩
    simp only [appendStringLoop, toValidLoop, List.nil_append]
    exact unquoteLoop_quote f rest
  | succ n ih =>
    intro s hlen fuel rest hfuel
    rcases s with _ | ⟨b, rest'⟩
    · obtain ⟨f, rfl⟩ : ∃ f, fuel = f + 1 := ⟨fuel - 1, by omega⟩
      simp only [appendStringLoop, toValidLoop, List.nil_append]
      exact unquoteLoop_quote f rest
    simp only [List.length_cons] at hlen
    rw [appendStringLoop] at hfuel ⊢
    rw [toValidLoop]
    by_cases hb : b < RuneSelf
    · have hne : ¬ ((DecodeRune (b :: rest')).1 = RuneError ∧ (DecodeRune (b :: rest')).2 = 1) := by
        rw [DecodeRune_ascii b rest' hb]
        simp only [RuneSelf, RuneError] at hb ⊢
        omega
      rw [if_neg hne, DecodeRune_ascii b rest' hb]
      simp only [List.drop_succ_cons, List.drop_zero, List.take_succ_cons, List.take_zero]
      rw [if_pos hb] at hfuel ⊢
      by_cases hsafe : htmlSafeSet b = true
      · rw [if_pos hsafe] at hfuel ⊢
        simp only [List.length_cons] at hfuel
        obtain ⟨f, rfl⟩ : ∃ f, fuel = f + 1 := ⟨fuel - 1, by omega⟩
        have hsafe' := hsafe
        simp only [htmlSafeSet, Bool.and_eq_true, decide_eq_true_eq, bne_iff_ne, ne_eq] at hsafe'
        rw [List.cons_append, unquoteLoop_plain f b _ (by omega) (by omega) (by omega) hb,
          ih rest' (by omega) f rest (by omega)]
        rfl
      · rw [if_neg hsafe] at hfuel ⊢
        simp only [List.length_append] at hfuel
        have := escapeByte_length b
        obtain ⟨f, rfl⟩ : ∃ f, fuel = f + 1 := ⟨fuel - 1, by omega⟩
        rw [List.append_assoc, unquoteLoop_escapeByte f b _ hb,
          ih rest' (by omega) f rest (by omega)]
        rfl
    · rw [if_neg hb] at hfuel ⊢
      simp only [DecodeRune_take] at hfuel ⊢
      by_cases hc : (DecodeRune (b :: rest')).1 = RuneError ∧ (DecodeRune (b :: rest')).2 = 1
      · rw [if_pos hc] at hfuel ⊢
        rw [if_pos hc]
        have h6 : (ascii "\\ufffd").length = 6 := by decide
        simp only [List.length_append, h6] at hfuel
        obtain ⟨f, rfl⟩ : ∃ f, fuel = f + 1 := ⟨fuel - 1, by omega⟩
        rw [List.append_assoc, unquoteLoop_replacement, ih rest' (by omega) f rest (by omega),
          consBytes_some]
      obtain ⟨h2, hle, henc, hdec⟩ := DecodeRune_multibyte b rest' hb hc
      rw [if_neg hc] at hfuel ⊢
      rw [if_neg hc]
      have hdroplen : ((b :: rest').drop (DecodeRune (b :: rest')).2).length ≤ n := by
        simp only [List.length_drop, List.length_cons]; omega
      have htakelen : ((b :: rest').take (DecodeRune (b :: rest')).2).length
          = (DecodeRune (b :: rest')).2 := by
        rw [List.length_take]; omega
      by_cases hls : (DecodeRune (b :: rest')).1 = 0x2028 ∨ (DecodeRune (b :: rest')).1 = 0x2029
      · rw [if_pos hls] at hfuel ⊢
        have h5 : (ascii "\\u202").length = 5 := by decide
        simp only [List.length_append, List.length_cons, List.length_nil, h5] at hfuel
        obtain ⟨f, rfl⟩ : ∃ f, fuel = f + 1 := ⟨fuel - 1, by omega⟩
        rw [List.append_assoc, unquoteLoop_lineSep f _ _ hls,
          ih _ hdroplen f rest (by omega), consBytes_some, henc]
      · rw [if_neg hls] at hfuel ⊢
        simp only [List.length_append, htakelen] at hfuel
        obtain ⟨f, rfl⟩ : ∃ f, fuel = f + 1 := ⟨fuel - 1, by omega⟩
        obtain ⟨k, hk⟩ : ∃ k, (DecodeRune (b :: rest')).2 = k + 1 :=
          ⟨(DecodeRune (b :: rest')).2 - 1, by omega⟩
        have hcons : ∀ X : List Nat, (b :: rest').take (DecodeRune (b :: rest')).2 ++ X
            = b :: (rest'.take k ++ X) := by
          intro X; rw [hk, List.take_succ_cons, List.cons_append]
        rw [List.append_assoc, hcons, unquoteLoop_multibyte f b _ hb, ← hcons, hdec,
          List.drop_left' htakelen, ih _ hdroplen f rest (by omega), consBytes_some, henc]

theorem unquote_appendString (s : GoString) (rest : List Nat) :
    unquote (appendStringLoop s.length s ++ 0x22 :: rest) = some (coerceUTF8 s, rest) := by
  unfold unquote coerceUTF8
  exact unquoteLoop_appendStringLoop s.length s (Nat.le_refl _) _ rest
    (by simp only [List.length_append, List.length_cons]; omega)

theorem DecodeRune_size_pos (b : Nat) (rest : List Nat)
    (hc : ¬ ((DecodeRune (b :: rest)).1 = RuneError ∧ (DecodeRune (b :: rest)).2 = 1)) :
    1 ≤ (DecodeRune (b :: rest)).2 := by
  by_cases hb : b < RuneSelf
  · rw [DecodeRune_ascii b rest hb]
  · exact Nat.le_of_succ_le (DecodeRune_multibyte b rest hb hc).1

/-- Coercion leaves valid UTF-8 as it is. -/
theorem toValidLoop_of_valid : ∀ (n : Nat) (s : List Nat), s.length ≤ n →
    validLoop n s = true → toValidLoop n s = s := by
  intro n
  induction n with
  | zero =>
    intro s hlen _
    have hs : s = [] := List.length_eq_zero.mp (by omega)
    subst hs
    rfl
  | succ n ih =>
    intro s hlen hv
    rcases s with _ | ⟨b, rest'⟩
    · rfl
    rw [validLoop] at hv
    rw [toValidLoop]
    by_cases hc : (DecodeRune (b :: rest')).1 = RuneError ∧ (DecodeRune (b :: rest')).2 = 1
    · rw [if_pos hc] at hv; exact absurd hv (by simp)
    rw [if_neg hc] at hv ⊢
    have hsize := DecodeRune_size_pos b rest' hc
    simp only [List.length_cons] at hlen
    rw [ih _ (by simp only [List.length_drop, List.length_cons]; omega) hv,
      List.take_append_drop]

/-- A string that coercion leaves as it is, is valid UTF-8. -/
theorem valid_of_toValidLoop : ∀ (n : Nat) (s : List Nat), s.length ≤ n →
    toValidLoop n s = s → validLoop n s = true := by
  intro n
  induction n with
  | zero =>
    intro s hlen _
    have hs : s = [] := List.length_eq_zero.mp (by omega)
    subst hs
    rfl
  | succ n ih =>
    intro s hlen hv
    rcases s with _ | ⟨b, rest'⟩
    · rfl
    rw [toValidLoop] at hv
    rw [validLoop]
    by_cases hc : (DecodeRune (b :: rest')).1 = RuneError ∧ (DecodeRune (b :: rest')).2 = 1
    · exfalso
      rw [if_pos hc] at hv
      have he : EncodeRune RuneError = [0xEF, 0xBF, 0xBD] := by decide
      rw [he] at hv
      simp only [List.cons_append, List.nil_append, List.cons.injEq] at hv
      obtain ⟨hb, hrest⟩ := hv
      rw [← hb, ← hrest] at hc
      have h3 := DecodeRune_three 0xEF 0xBF 0xBD (toValidLoop n rest') (by decide) (by decide)
      rw [h3] at hc
      revert hc
      decide
    · rw [if_neg hc] at hv ⊢
      have hsplit : (b :: rest').take (DecodeRune (b :: rest')).2
          ++ toValidLoop n ((b :: rest').drop (DecodeRune (b :: rest')).2)
          = (b :: rest').take (DecodeRune (b :: rest')).2
            ++ (b :: rest').drop (DecodeRune (b :: rest')).2 := by
        rw [hv, List.take_append_drop]
      have hsize := DecodeRune_size_pos b rest' hc
      simp only [List.length_cons] at hlen
      exact ih _ (by simp only [List.length_drop, List.length_cons]; omega)
        (List.append_cancel_left hsplit)

theorem coerceUTF8_eq_self_iff (s : GoString) : coerceUTF8 s = s ↔ Valid s = true :=
  ⟨valid_of_toValidLoop s.length s (Nat.le_refl _),
   toValidLoop_of_valid s.length s (Nat.le_refl _)⟩

/-! ## Parsing the encoder's output -/

theorem skipSpace_cons (c : Nat) (t : List Nat) (h : isSpace c = false) :
    skipSpace (c :: t) = c :: t := by
  rw [skipSpace, h]; rfl

theorem appendString_cons (s : GoString) (t : List Nat) :
    appendString s ++ t = 0x22 :: (appendStringLoop s.length s ++ 0x22 :: t) := by
  simp [appendString]

theorem skipSpace_appendString (s : GoString) (t : List Nat) :
    skipSpace (appendString s ++ t) = appendString s ++ t := by
  rw [appendString_cons, skipSpace_cons _ _ (by decide)]

theorem startsWith_appendString (c : Nat) (hc : c ≠ 0x22) (s : GoString) (t : List Nat) :
    startsWith c (appendString s ++ t) = false := by
  rw [appendString_cons]
  simp only [startsWith, decide_eq_false_iff_not]
  exact fun h => hc h.symm

theorem parseValue_string (f d : Nat) (s : GoString) (t : List Nat) :
    parseValue (f + 1) d (appendString s ++ t) = some (.string (coerceUTF8 s), t) := by
  rw [appendString_cons, parseValue, if_neg (by decide), if_neg (by decide), if_pos rfl,
    parseString, unquote_appendString s]

theorem parseValue_null (f d : Nat) (t : List Nat) :
    parseValue (f + 1) d (ascii "null" ++ t) = some (.null, t) := by
  have h : ascii "null" = [0x6E, 0x75, 0x6C, 0x6C] := by decide
  have h2 : ascii "ull" = [0x75, 0x6C, 0x6C] := by decide
  rw [h]
  simp only [List.cons_append, List.nil_append]
  rw [parseValue, if_neg (by decide), if_neg (by decide), if_neg (by decide), if_neg (by decide),
    if_neg (by decide), if_pos rfl, parseLiteral, h2]
  simp [expectBytes]

theorem parseValue_emptyArray (f d : Nat) (hd : d < maxNestingDepth) (t : List Nat) :
    parseValue (f + 1) d (0x5B :: 0x5D :: t) = some (.array [], t) := by
  rw [parseValue, if_neg (by decide), if_pos rfl, if_neg (by omega),
    skipSpace_cons _ _ (by decide)]
  simp [startsWith]

theorem parseValue_array (f d : Nat) (hd : d < maxNestingDepth) (body : List Nat)
    (hns : skipSpace body = body) (hne : startsWith 0x5D body = false)
    (vs : List JsonValue) (rest : List Nat)
    (h : parseElements f (d + 1) body = some (vs, rest)) :
    parseValue (f + 1) d (0x5B :: body) = some (.array vs, rest) := by
  rw [parseValue, if_neg (by decide), if_pos rfl, if_neg (by omega), hns, hne, h]
  rfl

theorem parseValue_object (f d : Nat) (hd : d < maxNestingDepth) (body : List Nat)
    (hns : skipSpace body = body) (hne : startsWith 0x7D body = false)
    (ms : List (GoString × JsonValue)) (rest : List Nat)
    (h : parseMembers f (d + 1) body = some (ms, rest)) :
    parseValue (f + 1) d (0x7B :: body) = some (.object ms, rest) := by
  rw [parseValue, if_pos rfl, if_neg (by omega), hns, hne, h]
  rfl

theorem parseElements_last (f d : Nat) (s : List Nat) (v : JsonValue) (rest : List Nat)
    (hV : parseValue f d s = some (v, 0x5D :: rest)) :
    parseElements (f + 1) d s = some ([v], rest) := by
  rw [parseElements, hV]
  simp [skipSpace_cons, isSpace, startsWith]

theorem parseElements_cons (f d : Nat) (s : List Nat) (v : JsonValue)
    (more : List Nat) (hns : skipSpace more = more) (vs : List JsonValue) (rest : List Nat)
    (hV : parseValue f d s = some (v, 0x2C :: more))
    (hmore : parseElements f d more = some (vs, rest)) :
    parseElements (f + 1) d s = some (v :: vs, rest) := by
  rw [parseElements, hV]
  simp only [skipSpace_cons 0x2C _ (by decide : isSpace 0x2C = false), List.drop_succ_cons,
    List.drop_zero, hns, hmore]
  simp [startsWith]

theorem parseMembers_last (f d : Nat) (key : GoString) (hk : coerceUTF8 key = key)
    (s : List Nat) (hns : skipSpace s = s) (v : JsonValue) (rest : List Nat)
    (hV : parseValue f d s = some (v, 0x7D :: rest)) :
    parseMembers (f + 1) d (appendString key ++ 0x3A :: s) = some ([(key, v)], rest) := by
  rw [appendString_cons, parseMembers]
  simp only [startsWith, decide_True, if_true, List.drop_succ_cons, List.drop_zero,
    unquote_appendString key, hk, skipSpace_cons 0x3A _ (by decide : isSpace 0x3A = false),
    hns, hV, skipSpace_cons 0x7D _ (by decide : isSpace 0x7D = false)]
  simp

theorem parseMembers_cons (f d : Nat) (key : GoString) (hk : coerceUTF8 key = key)
    (s : List Nat) (hns : skipSpace s = s) (v : JsonValue) (more : List Nat)
    (hns2 : skipSpace more = more) (ms : List (GoString × JsonValue)) (rest : List Nat)
    (hV : parseValue f d s = some (v, 0x2C :: more))
    (hmore : parseMembers f d more = some (ms, rest)) :
    parseMembers (f + 1) d (appendString key ++ 0x3A :: s)
      = some ((key, v) :: ms, rest) := by
  rw [appendString_cons, parseMembers]
  simp only [startsWith, decide_True, if_true, List.drop_succ_cons, List.drop_zero,
    unquote_appendString key, hk, skipSpace_cons 0x3A _ (by decide : isSpace 0x3A = false),
    hns, hV, skipSpace_cons 0x2C _ (by decide : isSpace 0x2C = false), hns2, hmore]

/-- The encoding of an `openAIMessage`, byte by byte and string by string. -/
theorem marshalOpenAIMessage_append (m : openAIMessage) (t : List Nat) :
    marshalOpenAIMessage m ++ t =
      0x7B :: (appendString (ascii "role") ++ 0x3A :: (appendString m.Role ++ 0x2C ::
        (appendString (ascii "content") ++ 0x3A :: (appendString m.Content ++ 0x7D :: t)))) := by
  have hA : ascii "\x7b\"role\":" = 0x7B :: (appendString (ascii "role") ++ [0x3A]) := by decide
  have hB : ascii ",\"content\":" = 0x2C :: (appendString (ascii "content") ++ [0x3A]) := by
    decide
  have hC : ascii "\x7d" = [0x7D] := by decide
  simp only [marshalOpenAIMessage, hA, hB, hC, List.append_assoc, List.cons_append,
    List.nil_append]

theorem parseValue_message (f d : Nat) (hf : 4 ≤ f) (hd : d < maxNestingDepth)
    (m : openAIMessage) (t : List Nat) :
    parseValue f d (marshalOpenAIMessage m ++ t) = some (messageTree (coerceMessage m), t) := by
  obtain ⟨g, rfl⟩ : ∃ g, f = g + 4 := ⟨f - 4, by omega⟩
  rw [marshalOpenAIMessage_append, messageTree]
  apply parseValue_object (g + 3) d hd _ (skipSpace_appendString _ _)
    (startsWith_appendString _ (by decide) _ _)
  apply parseMembers_cons (g + 2) (d + 1) (ascii "role") (by decide) _
    (skipSpace_appendString _ _) (.string (coerceUTF8 m.Role)) _ (skipSpace_appendString _ _)
  · exact parseValue_string (g + 1) (d + 1) m.Role _
  · apply parseMembers_last (g + 1) (d + 1) (ascii "content") (by decide) _
      (skipSpace_appendString _ _)
    exact parseValue_string g (d + 1) m.Content _

theorem marshalElems_cons_cons (m m2 : openAIMessage) (ms : List openAIMessage) :
    marshalElems (m :: m2 :: ms)
      = marshalOpenAIMessage m ++ [0x2C] ++ marshalElems (m2 :: ms) := rfl

theorem marshalElems_singleton (m : openAIMessage) :
    marshalElems [m] = marshalOpenAIMessage m := rfl

theorem marshalElems_cons_append (m : openAIMessage) (ms : List openAIMessage) (t : List Nat) :
    ∃ X, marshalElems (m :: ms) ++ t = 0x7B :: X := by
  cases ms with
  | nil => exact ⟨_, by rw [marshalElems_singleton, marshalOpenAIMessage_append]⟩
  | cons m2 ms2 =>
    exact ⟨_, by rw [marshalElems_cons_cons, List.append_assoc, List.append_assoc,
      marshalOpenAIMessage_append]⟩

theorem skipSpace_marshalElems (m : openAIMessage) (ms : List openAIMessage) (t : List Nat) :
    skipSpace (marshalElems (m :: ms) ++ t) = marshalElems (m :: ms) ++ t := by
  obtain ⟨X, hX⟩ := marshalElems_cons_append m ms t
  rw [hX, skipSpace_cons _ _ (by decide)]

theorem startsWith_marshalElems (m : openAIMessage) (ms : List openAIMessage) (t : List Nat) :
    startsWith 0x5D (marshalElems (m :: ms) ++ t) = false := by
  obtain ⟨X, hX⟩ := marshalElems_cons_append m ms t
  rw [hX]
  simp [startsWith]

theorem parseElements_marshalElems (d : Nat) (hd : d < maxNestingDepth) (rest : List Nat) :
    ∀ (ms : List openAIMessage) (m : openAIMessage) (f : Nat), ms.length + 5 ≤ f →
    parseElements f d (marshalElems (m :: ms) ++ 0x5D :: rest)
      = some (((m :: ms).map coerceMessage).map messageTree, rest) := by
  intro ms
  induction ms with
  | nil =>
    intro m f hf
    obtain ⟨g, rfl⟩ : ∃ g, f = g + 1 := ⟨f - 1, by omega⟩
    rw [marshalElems_singleton]
    exact parseElements_last g d _ _ rest
      (parseValue_message g d (by simp at hf; omega) hd m _)
  | cons m2 ms2 ih =>
    intro m f hf
    obtain ⟨g, rfl⟩ : ∃ g, f = g + 1 := ⟨f - 1, by omega⟩
    simp only [List.length_cons] at hf
    rw [marshalElems_cons_cons, List.append_assoc, List.append_assoc]
    simp only [List.cons_append, List.nil_append, List.map_cons]
    apply parseElements_cons g d _ (messageTree (coerceMessage m)) _
      (skipSpace_marshalElems m2 ms2 _)
    · exact parseValue_message g d (by omega) hd m _
    · have := ih m2 g (by omega)
      simpa using this

theorem marshalElems_length (ms : List openAIMessage) : ms.length ≤ (marshalElems ms).length := by
  induction ms with
  | nil => simp [marshalElems]
  | cons m ms ih =>
    cases ms with
    | nil =>
      have := congrArg List.length (marshalOpenAIMessage_append m [])
      simp at this
      simp [marshalElems]; omega
    | cons m2 ms2 =>
      rw [marshalElems_cons_cons]
      simp only [List.length_append, List.length_cons, List.length_nil] at ih ⊢
      omega

theorem decodeMessage_messageTree (m : openAIMessage) :
    decodeMessage (messageTree m) { Role := [], Content := [] } = some m := by
  have h1 : findField [ascii "role", ascii "content"] (ascii "role") = some (ascii "role") := by
    decide
  have h2 : findField [ascii "role", ascii "content"] (ascii "content")
      = some (ascii "content") := by decide
  have h3 : ¬ (ascii "content" = ascii "role") := by decide
  simp [messageTree, decodeMessage, decodeMessageMembers, h1, h2, h3, decodeString]

theorem decodeMessageElems_map (ms : List openAIMessage) :
    decodeMessageElems (ms.map messageTree) [] = some ms := by
  induction ms with
  | nil => rfl
  | cons m ms ih =>
    simp only [List.map_cons, decodeMessageElems, List.headD_nil, List.tail_nil,
      decodeMessage_messageTree, ih]

theorem skipSpace_marshalMessages (msgs : Option (List openAIMessage)) (t : List Nat) :
    skipSpace (marshalMessages msgs ++ t) = marshalMessages msgs ++ t := by
  cases msgs with
  | none =>
    have h : ascii "null" = [0x6E, 0x75, 0x6C, 0x6C] := by decide
    rw [marshalMessages, h, List.cons_append, skipSpace_cons _ _ (by decide)]
  | some ms =>
    rw [marshalMessages, List.append_assoc, List.append_assoc, List.cons_append,
      skipSpace_cons _ _ (by decide)]

theorem marshalMessages_length (msgs : Option (List openAIMessage)) :
    (msgs.getD []).length ≤ (marshalMessages msgs).length := by
  cases msgs with
  | none => simp
  | some ms =>
    have := marshalElems_length ms
    simp only [marshalMessages, Option.getD_some, List.length_append, List.length_cons,
      List.length_nil]
    omega

theorem parseValue_marshalMessages (f d : Nat) (hd : d + 1 < maxNestingDepth)
    (msgs : Option (List openAIMessage)) (hf : (msgs.getD []).length + 6 ≤ f) (t : List Nat) :
    parseValue f d (marshalMessages msgs ++ t)
      = some (messagesTree (msgs.map (fun ms => ms.map coerceMessage)), t) := by
  obtain ⟨g, rfl⟩ : ∃ g, f = g + 1 := ⟨f - 1, by omega⟩
  cases msgs with
  | none => exact parseValue_null g d t
  | some ms =>
    cases ms with
    | nil => exact parseValue_emptyArray g d (by omega) t
    | cons m ms =>
      simp only [Option.getD_some, List.length_cons] at hf
      rw [marshalMessages, List.append_assoc, List.append_assoc]
      simp only [List.cons_append, List.nil_append]
      exact parseValue_array g d (by omega) _ (skipSpace_marshalElems m ms _)
        (startsWith_marshalElems m ms _) _ t
        (parseElements_marshalElems (d + 1) hd t ms m g (by omega))

/-- The encoding of an `openAIChatRequest`, byte by byte and string by string. -/
theorem marshalOpenAIChatRequest_append (r : openAIChatRequest) (t : List Nat) :
    marshalOpenAIChatRequest r ++ t =
      0x7B :: (appendString (ascii "model") ++ 0x3A :: (appendString r.Model ++ 0x2C ::
        (appendString (ascii "messages") ++ 0x3A :: (marshalMessages r.Messages
          ++ 0x7D :: t)))) := by
  have hA : ascii "\x7b\"model\":" = 0x7B :: (appendString (ascii "model") ++ [0x3A]) := by
    decide
  have hB : ascii ",\"messages\":" = 0x2C :: (appendString (ascii "messages") ++ [0x3A]) := by
    decide
  have hC : ascii "\x7d" = [0x7D] := by decide
  simp only [marshalOpenAIChatRequest, hA, hB, hC, List.append_assoc, List.cons_append,
    List.nil_append]

theorem parseValue_marshalOpenAIChatRequest (f : Nat) (r : openAIChatRequest)
    (hf : (r.Messages.getD []).length + 9 ≤ f) (t : List Nat) :
    parseValue f 0 (marshalOpenAIChatRequest r ++ t) =
      some (.object [(ascii "model", .string (coerceRequest r).Model),
        (ascii "messages", messagesTree (coerceRequest r).Messages)], t) := by
  obtain ⟨g, rfl⟩ : ∃ g, f = g + 3 := ⟨f - 3, by omega⟩
  have hmsgs : (coerceRequest r).Messages = r.Messages.map (fun ms => ms.map coerceMessage) := by
    cases r with
    | mk M msgs => cases msgs <;> rfl
  rw [marshalOpenAIChatRequest_append, hmsgs]
  apply parseValue_object (g + 2) 0 (by decide) _ (skipSpace_appendString _ _)
    (startsWith_appendString _ (by decide) _ _)
  apply parseMembers_cons (g + 1) 1 (ascii "model") (by decide) _
    (skipSpace_appendString _ _) (.string (coerceUTF8 r.Model)) _ (skipSpace_appendString _ _)
  · exact parseValue_string g 1 r.Model _
  · apply parseMembers_last g 1 (ascii "messages") (by decide) _
      (skipSpace_marshalMessages _ _)
    exact parseValue_marshalMessages g 1 (by decide) r.Messages (by omega) _

theorem decodeRequest_tree (r : openAIChatRequest) :
    decodeRequestMembers [(ascii "model", .string r.Model),
        (ascii "messages", messagesTree r.Messages)] { Model := [], Messages := none }
      = some r := by
  have h1 : findField [ascii "model", ascii "messages"] (ascii "model")
      = some (ascii "model") := by decide
  have h2 : findField [ascii "model", ascii "messages"] (ascii "messages")
      = some (ascii "messages") := by decide
  have h3 : ¬ (ascii "messages" = ascii "model") := by decide
  obtain ⟨M, msgs⟩ := r
  cases msgs with
  | none => simp [decodeRequestMembers, h1, h2, h3, decodeString, messagesTree, decodeMessages]
  | some ms =>
    simp [decodeRequestMembers, h1, h2, h3, decodeString, messagesTree, decodeMessages,
      decodeMessageElems_map]

/-- Decoding what the encoder wrote for a request gives the request with its
strings coerced to valid UTF-8. -/
theorem unmarshal_marshal (r : openAIChatRequest) :
    unmarshalOpenAIChatRequest (marshalOpenAIChatRequest r ++ [0x0A])
      = some (coerceRequest r) := by
  have hlen : (r.Messages.getD []).length + 9
      ≤ 2 * (marshalOpenAIChatRequest r ++ [0x0A]).length + 2 := by
    have h1 := marshalMessages_length r.Messages
    have h2 := congrArg List.length (marshalOpenAIChatRequest_append r [0x0A])
    simp only [List.length_cons, List.length_append, List.length_nil] at h2 ⊢
    omega
  have hsk : skipSpace (marshalOpenAIChatRequest r ++ [0x0A])
      = marshalOpenAIChatRequest r ++ [0x0A] := by
    rw [marshalOpenAIChatRequest_append, skipSpace_cons _ _ (by decide)]
  unfold unmarshalOpenAIChatRequest parseDocument
  rw [hsk, parseValue_marshalOpenAIChatRequest _ r hlen]
  have h0 : skipSpace [0x0A] = [] := by decide
  simp only [h0, if_true]
  exact decodeRequest_tree (coerceRequest r)

theorem coerceMessage_eq_self_iff (m : openAIMessage) :
    coerceMessage m = m ↔ (Valid m.Role = true ∧ Valid m.Content = true) := by
  cases m with
  | mk R C =>
    simp only [coerceMessage, openAIMessage.mk.injEq, coerceUTF8_eq_self_iff]

theorem map_coerceMessage_eq_self_iff (ms : List openAIMessage) :
    ms.map coerceMessage = ms ↔ ∀ m ∈ ms, Valid m.Role = true ∧ Valid m.Content = true := by
  induction ms with
  | nil => simp
  | cons m ms ih =>
    simp only [List.map_cons, List.cons.injEq, coerceMessage_eq_self_iff, ih, List.mem_cons,
      forall_eq_or_imp]

/-- Coercion leaves a request as it is exactly when all its strings are valid
UTF-8. -/
theorem coerceRequest_eq_self_iff (r : openAIChatRequest) :
    coerceRequest r = r ↔
      (Valid r.Model = true
        ∧ ∀ m ∈ r.Messages.getD [], Valid m.Role = true ∧ Valid m.Content = true) := by
  cases r with
  | mk M msgs =>
    cases msgs with
    | none => simp [coerceRequest, coerceUTF8_eq_self_iff]
    | some ms =>
      simp [coerceRequest, coerceUTF8_eq_self_iff, map_coerceMessage_eq_self_iff]

/-- The round trip through the encoder and the decoder gives the request back
exactly when all its strings are valid UTF-8. -/
theorem unmarshal_marshal_eq_self_iff (r : openAIChatRequest) :
    unmarshalOpenAIChatRequest (marshalOpenAIChatRequest r ++ [0x0A]) = some r ↔
      (Valid r.Model = true
        ∧ ∀ m ∈ r.Messages.getD [], Valid m.Role = true ∧ Valid m.Content = true) := by
  rw [unmarshal_marshal, Option.some.injEq, coerceRequest_eq_self_iff]

/-! ## The request `Generate` builds and sends -/

theorem foldl_append_singleton {α β : Type} (f : α → β) (l : List α) (acc : List β) :
    l.foldl (fun acc x => acc ++ [f x]) acc = acc ++ l.map f := by
  induction l generalizing acc with
  | nil => simp
  | cons x xs ih => simp [List.foldl_cons, ih]

theorem Generate_openAIReq_eq (oai : OpenAIChatModel) (userPrompt : GoString) :
    Generate_openAIReq oai userPrompt =
      { Model := oai.model,
        Messages := some (oai.systemMessages.map (fun s => { Role := ascii "system", Content := s })
          ++ [{ Role := ascii "user", Content := userPrompt }]) } := by
  simp [Generate_openAIReq, foldl_append_singleton]

theorem NewRequest_post (env : Env) (url : GoString) (body : List Nat) :
    NewRequest env MethodPost url body =
      match env.urlParse url with
      | some err => .error err
      | none => .ok { Method := MethodPost, URL := url, Header := [], Body := body } := by
  unfold NewRequest
  have h1 : ¬ (MethodPost = []) := by decide
  have h2 : validMethod MethodPost = true := by decide
  simp [h1, h2]

/-- The request that `bearerHttpRequest` hands to the HTTP client once the body
is encoded and the request is built. -/
theorem bearerHttpRequest_sent {α β : Type} (env : Env)
    (marshal : α → Except GoError (List Nat))
    (unmarshal : List Nat → β → Option GoError × β)
    (token url method : GoString) (jsonReq : α) (jsonRes : β) (w : World)
    (buf : List Nat) (req0 : HttpRequest)
    (henc : EncoderEncode marshal jsonReq = .ok buf)
    (hreq : NewRequest env method url buf = .ok req0) :
    (bearerHttpRequest env marshal unmarshal token url method jsonReq jsonRes w).2.2.sent =
      w.sent ++ [(req0.HeaderAdd (ascii "Authorization") (ascii "Bearer " ++ token)).HeaderAdd
        (ascii "Content-Type") (ascii "application/json")] := by
  unfold bearerHttpRequest
  simp only [henc, hreq]
  split
  · simp [World.log]
  · split
    · simp [World.log]
    · split
      · simp [World.log]
      · split <;> simp_all [World.log]

/-- The world after `Generate` is the world after its one transport call. -/
theorem Generate_world (env : Env)
    (unmarshal : List Nat → openAiChatResponse → Option GoError × openAiChatResponse)
    (oai : OpenAIChatModel) (userPrompt : GoString) (w : World) :
    (Generate env unmarshal oai userPrompt w).2.2 =
      (bearerHttpRequest env (fun v => .ok (marshalOpenAIChatRequest v)) unmarshal
        oai.apiKey chatCompletionsURL MethodPost (Generate_openAIReq oai userPrompt)
        openAiChatResponse.zero w).2.2 := by
  dsimp only [Generate]
  split
  · rfl
  · split <;> rfl

/-- The receiver after `Generate` is the receiver before it. -/
theorem Generate_receiver (env : Env)
    (unmarshal : List Nat → openAiChatResponse → Option GoError × openAiChatResponse)
    (oai : OpenAIChatModel) (userPrompt : GoString) (w : World) :
    (Generate env unmarshal oai userPrompt w).2.1 = oai := by
  dsimp only [Generate]
  split
  · rfl
  · split <;> rfl

/-- The one HTTP request of a `Generate` call, when the endpoint URL parses. -/
theorem Generate_sent (env : Env)
    (unmarshal : List Nat → openAiChatResponse → Option GoError × openAiChatResponse)
    (oai : OpenAIChatModel) (userPrompt : GoString) (w : World)
    (hurl : env.urlParse chatCompletionsURL = none) :
    (Generate env unmarshal oai userPrompt w).2.2.sent =
      w.sent ++ [{ Method := MethodPost, URL := chatCompletionsURL,
                   Header := [(ascii "Authorization", ascii "Bearer " ++ oai.apiKey),
                              (ascii "Content-Type", ascii "application/json")],
                   Body := marshalOpenAIChatRequest (Generate_openAIReq oai userPrompt)
                     ++ [0x0A] }] := by
  rw [Generate_world]
  rw [bearerHttpRequest_sent env (fun v => .ok (marshalOpenAIChatRequest v)) unmarshal oai.apiKey chatCompletionsURL MethodPost
    (Generate_openAIReq oai userPrompt) openAiChatResponse.zero w
    (marshalOpenAIChatRequest (Generate_openAIReq oai userPrompt) ++ [0x0A])
    { Method := MethodPost, URL := chatCompletionsURL, Header := [],
      Body := marshalOpenAIChatRequest (Generate_openAIReq oai userPrompt) ++ [0x0A] }
    rfl (by rw [NewRequest_post, hurl])]
  rfl

/-! ## Claims about `Generate` and `bearerHttpRequest` -/

/-- C1: the message list of the request that `Generate` hands to the transport
is the system messages mapped in order to `system` entries, followed by one
`user` entry with the prompt; it has `len(S) + 1` entries, its last entry is
that user entry, and no other entry carries the role `user`. The transport call
of `Generate` is the call on exactly this request. -/
theorem C1_generate_message_list (env : Env)
    (unmarshal : List Nat → openAiChatResponse → Option GoError × openAiChatResponse)
    (oai : OpenAIChatModel) (userPrompt : GoString) (w : World) :
    (Generate_openAIReq oai userPrompt).Messages =
        some (oai.systemMessages.map (fun s => { Role := ascii "system", Content := s })
          ++ [{ Role := ascii "user", Content := userPrompt }])
    ∧ (∀ msgs, (Generate_openAIReq oai userPrompt).Messages = some msgs →
        msgs.length = oai.systemMessages.length + 1
        ∧ msgs.getLast? = some { Role := ascii "user", Content := userPrompt }
        ∧ msgs.filter (fun m => m.Role = ascii "user")
            = [{ Role := ascii "user", Content := userPrompt }])
    ∧ (Generate env unmarshal oai userPrompt w).2.2 =
        (bearerHttpRequest env (fun v => .ok (marshalOpenAIChatRequest v)) unmarshal
          oai.apiKey chatCompletionsURL MethodPost
          { Model := oai.model,
            Messages := some (oai.systemMessages.map
                (fun s => { Role := ascii "system", Content := s })
              ++ [{ Role := ascii "user", Content := userPrompt }]) }
          openAiChatResponse.zero w).2.2 := by
  refine ⟨by rw [Generate_openAIReq_eq], ?_, by rw [Generate_world, Generate_openAIReq_eq]⟩
  intro msgs hmsgs
  rw [Generate_openAIReq_eq] at hmsgs
  simp only [Option.some.injEq] at hmsgs
  subst hmsgs
  refine ⟨by simp, by simp, ?_⟩
  have hne : ¬ (ascii "system" = ascii "user") := by decide
  rw [List.filter_append]
  have h1 : (oai.systemMessages.map
      (fun s => ({ Role := ascii "system", Content := s } : openAIMessage))).filter
      (fun m => m.Role = ascii "user") = [] := by
    rw [List.filter_eq_nil_iff]
    intro m hm
    rw [List.mem_map] at hm
    obtain ⟨s, _, rfl⟩ := hm
    simpa using hne
  rw [h1]
  simp

/-- C2: when the transport call succeeds and the decoded response has a first
choice, `Generate` returns the content of that first choice and no error,
whatever follows it and whatever the other fields hold. -/
theorem C2_generate_returns_first_choice (env : Env)
    (unmarshal : List Nat → openAiChatResponse → Option GoError × openAiChatResponse)
    (oai : OpenAIChatModel) (userPrompt : GoString) (w : World)
    (first : openAiChatResponseChoice) (others : List openAiChatResponseChoice)
    (hok : (bearerHttpRequest env (fun v => .ok (marshalOpenAIChatRequest v)) unmarshal
        oai.apiKey chatCompletionsURL MethodPost (Generate_openAIReq oai userPrompt)
        openAiChatResponse.zero w).1 = none)
    (hchoices : (bearerHttpRequest env (fun v => .ok (marshalOpenAIChatRequest v)) unmarshal
        oai.apiKey chatCompletionsURL MethodPost (Generate_openAIReq oai userPrompt)
        openAiChatResponse.zero w).2.1.Choices = first :: others) :
    (Generate env unmarshal oai userPrompt w).1 = .ret first.Message.Content none := by
  dsimp only [Generate]
  rw [hok, hchoices]
  simp

/-- A run of C2: status 200 and a body decoded to two choices; the result is the
first one. -/
theorem C2_generate_returns_first_choice_witness :
    (Generate (Env.answering 200 twoChoicesBody)
      (unmarshalTable [(twoChoicesBody, responseWithChoices [ascii "pong", ascii "other"])])
      (NewGPT4oModel (ascii "k") [ascii "be terse"]) (ascii "ping") World.empty).1
      = .ret (ascii "pong") none :=
  C2_generate_returns_first_choice (Env.answering 200 twoChoicesBody)
    (unmarshalTable [(twoChoicesBody, responseWithChoices [ascii "pong", ascii "other"])])
    (NewGPT4oModel (ascii "k") [ascii "be terse"]) (ascii "ping") World.empty
    { Index := 0, Message := { Role := [], Content := ascii "pong" }, Logprobs := .null,
      FinishReason := [] }
    [{ Index := 0, Message := { Role := [], Content := ascii "other" }, Logprobs := .null,
       FinishReason := [] }]
    (by rfl) (by rfl)

/-- C3: for a status code outside 200 to 299, whatever the response body,
`bearerHttpRequest` returns the error `non 2xx status: <code>` and the response
target is what it was before the call: the body is not decoded into it. -/
theorem C3_non2xx_error_target_unchanged {α β : Type} (env : Env)
    (marshal : α → Except GoError (List Nat))
    (unmarshal : List Nat → β → Option GoError × β)
    (token url method : GoString) (jsonReq : α) (jsonRes : β) (w : World)
    (buf : List Nat) (req0 : HttpRequest)
    (StatusCode : Int) (resBody : List Nat) (readErr : Option GoError)
    (henc : EncoderEncode marshal jsonReq = .ok buf)
    (hreq : NewRequest env method url buf = .ok req0)
    (hdo : env.Do w.sent
        ((req0.HeaderAdd (ascii "Authorization") (ascii "Bearer " ++ token)).HeaderAdd
          (ascii "Content-Type") (ascii "application/json"))
        = .response StatusCode resBody readErr)
    (hstatus : StatusCode < 200 ∨ 299 < StatusCode) :
    (bearerHttpRequest env marshal unmarshal token url method jsonReq jsonRes w).1
        = some (.errorf (ascii "non 2xx status: " ++ formatInt StatusCode))
    ∧ (bearerHttpRequest env marshal unmarshal token url method jsonReq jsonRes w).2.1
        = jsonRes := by
  have hs : StatusCode < 200 ∨ StatusCode > 299 := hstatus
  unfold bearerHttpRequest
  simp only [henc, hreq, hdo, hs, if_true]
  simp

/-- A run of C3: status 401 with a body that the decoder accepts and that would
change the target; the target stays zero. -/
theorem C3_non2xx_error_target_unchanged_witness :
    (unmarshalRequestTarget validRequestBody { Model := [], Messages := none }
        = (none, { Model := ascii "m", Messages := some [] }))
    ∧ (bearerHttpRequest (Env.answering 401 validRequestBody)
        (fun v => .ok (marshalOpenAIChatRequest v)) unmarshalRequestTarget
        (ascii "k") chatCompletionsURL MethodPost
        ({ Model := ascii "gpt-4o", Messages := none } : openAIChatRequest)
        ({ Model := [], Messages := none } : openAIChatRequest) World.empty).1
        = some (.errorf (ascii "non 2xx status: 401"))
    ∧ (bearerHttpRequest (Env.answering 401 validRequestBody)
        (fun v => .ok (marshalOpenAIChatRequest v)) unmarshalRequestTarget
        (ascii "k") chatCompletionsURL MethodPost
        ({ Model := ascii "gpt-4o", Messages := none } : openAIChatRequest)
        ({ Model := [], Messages := none } : openAIChatRequest) World.empty).2.1
        = { Model := [], Messages := none } :=
  ⟨by decide,
   C3_non2xx_error_target_unchanged (Env.answering 401 validRequestBody)
    (fun v => .ok (marshalOpenAIChatRequest v)) unmarshalRequestTarget
    (ascii "k") chatCompletionsURL MethodPost
    ({ Model := ascii "gpt-4o", Messages := none } : openAIChatRequest)
    ({ Model := [], Messages := none } : openAIChatRequest) World.empty
    (marshalOpenAIChatRequest { Model := ascii "gpt-4o", Messages := none } ++ [0x0A])
    { Method := MethodPost, URL := chatCompletionsURL, Header := [],
      Body := marshalOpenAIChatRequest { Model := ascii "gpt-4o", Messages := none } ++ [0x0A] }
    401 validRequestBody none (by rfl) (by rfl) (by rfl) (by decide)⟩

/-- C4: whenever the transport adapter returns an error `e`, `Generate` returns
the empty string together with that same error `e`. -/
theorem C4_generate_propagates_error (env : Env)
    (unmarshal : List Nat → openAiChatResponse → Option GoError × openAiChatResponse)
    (oai : OpenAIChatModel) (userPrompt : GoString) (w : World) (e : GoError)
    (herr : (bearerHttpRequest env (fun v => .ok (marshalOpenAIChatRequest v)) unmarshal
        oai.apiKey chatCompletionsURL MethodPost (Generate_openAIReq oai userPrompt)
        openAiChatResponse.zero w).1 = some e) :
    (Generate env unmarshal oai userPrompt w).1 = .ret [] (some e) := by
  dsimp only [Generate]
  rw [herr]

/-- A run of C4: status 401; `Generate` returns the empty string and the
transport's error. -/
theorem C4_generate_propagates_error_witness :
    (Generate (Env.answering 401 []) (unmarshalTable [])
      (NewGPT4oModel (ascii "k") []) (ascii "ping") World.empty).1
      = .ret [] (some (.errorf (ascii "non 2xx status: 401"))) :=
  C4_generate_propagates_error (Env.answering 401 []) (unmarshalTable [])
    (NewGPT4oModel (ascii "k") []) (ascii "ping") World.empty
    (.errorf (ascii "non 2xx status: 401")) (by rfl)

/-- C5 as stated fails: the body that `Generate("ping")` sends for the client
`NewGPT4oModel("k")` is not exactly the JSON object; `Encoder.Encode` ends it
with a newline byte after the closing brace. -/
theorem C5_body_is_not_the_bare_object :
    ((Generate (Env.answering 200 twoChoicesBody)
        (unmarshalTable [(twoChoicesBody, responseWithChoices [ascii "pong", ascii "other"])])
        (NewGPT4oModel (ascii "k") []) (ascii "ping") World.empty).2.2.sent.map
        HttpRequest.Body
      = [ascii ("\x7b\"model\":\"gpt-4o\",\"messages\":"
          ++ "[\x7b\"role\":\"user\",\"content\":\"ping\"\x7d]\x7d") ++ [0x0A]])
    ∧ ¬ ((Generate (Env.answering 200 twoChoicesBody)
        (unmarshalTable [(twoChoicesBody, responseWithChoices [ascii "pong", ascii "other"])])
        (NewGPT4oModel (ascii "k") []) (ascii "ping") World.empty).2.2.sent.map
        HttpRequest.Body
      = [ascii ("\x7b\"model\":\"gpt-4o\",\"messages\":"
          ++ "[\x7b\"role\":\"user\",\"content\":\"ping\"\x7d]\x7d")]) := by
  decide

/-- C5, amended: for the client `NewGPT4oModel("k")` with no system messages,
`Generate("ping")` sends one request whose body is the JSON object
`{"model":"gpt-4o","messages":[{"role":"user","content":"ping"}]}`, keys in that
order and without whitespace inside, followed by exactly one newline byte. -/
theorem C5_ping_body (env : Env)
    (unmarshal : List Nat → openAiChatResponse → Option GoError × openAiChatResponse)
    (w : World) (hurl : env.urlParse chatCompletionsURL = none) :
    (Generate env unmarshal (NewGPT4oModel (ascii "k") []) (ascii "ping") w).2.2.sent =
      w.sent ++ [{ Method := MethodPost, URL := chatCompletionsURL,
                   Header := [(ascii "Authorization", ascii "Bearer k"),
                              (ascii "Content-Type", ascii "application/json")],
                   Body := ascii ("\x7b\"model\":\"gpt-4o\",\"messages\":"
                     ++ "[\x7b\"role\":\"user\",\"content\":\"ping\"\x7d]\x7d") ++ [0x0A] }] := by
  rw [Generate_sent env unmarshal _ _ w hurl]
  have hbody : marshalOpenAIChatRequest
      (Generate_openAIReq (NewGPT4oModel (ascii "k") []) (ascii "ping"))
      = ascii ("\x7b\"model\":\"gpt-4o\",\"messages\":"
          ++ "[\x7b\"role\":\"user\",\"content\":\"ping\"\x7d]\x7d") := by decide
  have hauth : ascii "Bearer " ++ (NewGPT4oModel (ascii "k") []).apiKey = ascii "Bearer k" := by
    decide
  rw [hbody, hauth]

/-- A run of C5 as amended, from the empty world. -/
theorem C5_ping_body_witness :
    (Generate (Env.answering 200 twoChoicesBody)
        (unmarshalTable [(twoChoicesBody, responseWithChoices [ascii "pong", ascii "other"])])
        (NewGPT4oModel (ascii "k") []) (ascii "ping") World.empty).2.2.sent =
      World.empty.sent ++
        [{ Method := MethodPost, URL := chatCompletionsURL,
                   Header := [(ascii "Authorization", ascii "Bearer k"),
                              (ascii "Content-Type", ascii "application/json")],
                   Body := ascii ("\x7b\"model\":\"gpt-4o\",\"messages\":"
                     ++ "[\x7b\"role\":\"user\",\"content\":\"ping\"\x7d]\x7d") ++ [0x0A] }] :=
  C5_ping_body (Env.answering 200 twoChoicesBody)
    (unmarshalTable [(twoChoicesBody, responseWithChoices [ascii "pong", ascii "other"])])
    World.empty (by rfl)

/-- C6 as stated fails: a Go string need not be valid UTF-8, and the encoder
writes an invalid byte as the six-byte escape of U+FFFD. The request whose
model is the single byte `0xFF` is encoded with that escape as its model, and
decoding those bytes gives the three-byte model `0xEF 0xBF 0xBD`, not the
original. -/
theorem C6_round_trip_fails_on_invalid_utf8 :
    EncoderEncode (fun v => .ok (marshalOpenAIChatRequest v))
        ({ Model := [0xFF], Messages := none } : openAIChatRequest)
      = .ok (ascii "\x7b\"model\":\"\\ufffd\",\"messages\":null\x7d\n")
    ∧ unmarshalOpenAIChatRequest (ascii "\x7b\"model\":\"\\ufffd\",\"messages\":null\x7d\n")
      = some { Model := [0xEF, 0xBF, 0xBD], Messages := none }
    ∧ ¬ (unmarshalOpenAIChatRequest (ascii "\x7b\"model\":\"\\ufffd\",\"messages\":null\x7d\n")
      = some { Model := [0xFF], Messages := none }) :=
  ⟨rfl, by decide, by decide⟩

/-- C6, amended: for every `openAIChatRequest` whose model and whose message
roles and contents are valid UTF-8, encoding it as `bearerHttpRequest` does
(`Encoder.Encode`: the JSON text and a newline) succeeds, and decoding those
bytes into a zero `openAIChatRequest` succeeds and gives a value equal to the
original, model and messages alike. -/
theorem C6_round_trip_valid_utf8 (r : openAIChatRequest) (hmodel : Valid r.Model = true)
    (hmsgs : ∀ m ∈ r.Messages.getD [], Valid m.Role = true ∧ Valid m.Content = true) :
    ∃ buf, EncoderEncode (fun v => .ok (marshalOpenAIChatRequest v)) r = .ok buf
      ∧ unmarshalOpenAIChatRequest buf = some r :=
  ⟨marshalOpenAIChatRequest r ++ [0x0A], rfl,
    (unmarshal_marshal_eq_self_iff r).mpr ⟨hmodel, hmsgs⟩⟩

/-- A run of C6 as amended: escaped ASCII, a two-byte rune, U+2028 and a
four-byte rune all come back. -/
theorem C6_round_trip_valid_utf8_witness :
    ∃ buf, EncoderEncode (fun v => .ok (marshalOpenAIChatRequest v))
        ({ Model := ascii "gpt-4o",
           Messages := some [{ Role := ascii "system", Content := ascii "a<b>\"\\\n" },
             { Role := ascii "user",
               Content := [0xC3, 0xA9, 0xE2, 0x80, 0xA8, 0xF0, 0x9F, 0x98, 0x80] }] }
          : openAIChatRequest) = .ok buf
      ∧ unmarshalOpenAIChatRequest buf
        = some { Model := ascii "gpt-4o",
                 Messages := some [{ Role := ascii "system", Content := ascii "a<b>\"\\\n" },
                   { Role := ascii "user",
                     Content := [0xC3, 0xA9, 0xE2, 0x80, 0xA8, 0xF0, 0x9F, 0x98, 0x80] }] } :=
  C6_round_trip_valid_utf8 _ (by decide) (by decide)

/-- C7: `Generate` leaves the client as it was (model, key and system messages),
whether it returns a result, an error, or panics; so in a second call
`Generate(p2)` after `Generate(p1)` the request is built from the system
messages and `p2` alone, and the body sent is the encoding of that request:
nothing of `p1` or of the first reply is carried over. -/
theorem C7_generate_keeps_client (env : Env)
    (unmarshal : List Nat → openAiChatResponse → Option GoError × openAiChatResponse)
    (oai : OpenAIChatModel) (p1 p2 : GoString) (w : World) :
    (Generate env unmarshal oai p1 w).2.1 = oai
    ∧ Generate_openAIReq (Generate env unmarshal oai p1 w).2.1 p2 =
        { Model := oai.model,
          Messages := some (oai.systemMessages.map
              (fun s => { Role := ascii "system", Content := s })
            ++ [{ Role := ascii "user", Content := p2 }]) }
    ∧ (env.urlParse chatCompletionsURL = none →
        (Generate env unmarshal (Generate env unmarshal oai p1 w).2.1 p2
            (Generate env unmarshal oai p1 w).2.2).2.2.sent =
          (Generate env unmarshal oai p1 w).2.2.sent ++
            [{ Method := MethodPost, URL := chatCompletionsURL,
               Header := [(ascii "Authorization", ascii "Bearer " ++ oai.apiKey),
                          (ascii "Content-Type", ascii "application/json")],
               Body := marshalOpenAIChatRequest
                  { Model := oai.model,
                    Messages := some (oai.systemMessages.map
                        (fun s => { Role := ascii "system", Content := s })
                      ++ [{ Role := ascii "user", Content := p2 }]) } ++ [0x0A] }]) := by
  rw [Generate_receiver]
  refine ⟨rfl, Generate_openAIReq_eq oai p2, ?_⟩
  intro hurl
  rw [Generate_sent env unmarshal oai p2 _ hurl, Generate_openAIReq_eq]

/-- A run of C7: two calls in a world that answers 200; the client is unchanged
and the second request carries the system message and the second prompt. -/
theorem C7_generate_keeps_client_witness :
    (Generate (Env.answering 200 twoChoicesBody)
        (unmarshalTable [(twoChoicesBody, responseWithChoices [ascii "pong", ascii "other"])])
        (NewGPT4oModel (ascii "k") [ascii "be terse"]) (ascii "ping") World.empty).2.1
      = NewGPT4oModel (ascii "k") [ascii "be terse"]
    ∧ ((Generate (Env.answering 200 twoChoicesBody)
        (unmarshalTable [(twoChoicesBody, responseWithChoices [ascii "pong", ascii "other"])])
        (Generate (Env.answering 200 twoChoicesBody)
          (unmarshalTable [(twoChoicesBody, responseWithChoices [ascii "pong", ascii "other"])])
          (NewGPT4oModel (ascii "k") [ascii "be terse"]) (ascii "ping") World.empty).2.1
        (ascii "again")
        (Generate (Env.answering 200 twoChoicesBody)
          (unmarshalTable [(twoChoicesBody, responseWithChoices [ascii "pong", ascii "other"])])
          (NewGPT4oModel (ascii "k") [ascii "be terse"]) (ascii "ping")
          World.empty).2.2).2.2.sent.map HttpRequest.Body
      = [ascii ("\x7b\"model\":\"gpt-4o\",\"messages\":"
          ++ "[\x7b\"role\":\"system\",\"content\":\"be terse\"\x7d,"
          ++ "\x7b\"role\":\"user\",\"content\":\"ping\"\x7d]\x7d\n"),
         ascii ("\x7b\"model\":\"gpt-4o\",\"messages\":"
          ++ "[\x7b\"role\":\"system\",\"content\":\"be terse\"\x7d,"
          ++ "\x7b\"role\":\"user\",\"content\":\"again\"\x7d]\x7d\n")]) :=
  ⟨(C7_generate_keeps_client (Env.answering 200 twoChoicesBody)
      (unmarshalTable [(twoChoicesBody, responseWithChoices [ascii "pong", ascii "other"])])
      (NewGPT4oModel (ascii "k") [ascii "be terse"]) (ascii "ping") (ascii "again")
      World.empty).1,
   by
    rw [(C7_generate_keeps_client (Env.answering 200 twoChoicesBody)
      (unmarshalTable [(twoChoicesBody, responseWithChoices [ascii "pong", ascii "other"])])
      (NewGPT4oModel (ascii "k") [ascii "be terse"]) (ascii "ping") (ascii "again")
      World.empty).2.2 rfl]
    decide⟩

/-- C8: for the client `NewGPT4oModel(k, S...)` and any prompt, the request of
`Generate` has method POST, the URL
`https://api.openai.com/v1/chat/completions`, the header lines
`Authorization: Bearer k` and `Content-Type: application/json`, and a body that
starts with the member `"model":"gpt-4o"`. -/
theorem C8_generate_http_request (env : Env)
    (unmarshal : List Nat → openAiChatResponse → Option GoError × openAiChatResponse)
    (k : GoString) (S : List GoString) (userPrompt : GoString) (w : World)
    (hurl : env.urlParse chatCompletionsURL = none) :
    (Generate env unmarshal (NewGPT4oModel k S) userPrompt w).2.2.sent =
      w.sent ++ [{ Method := ascii "POST",
                   URL := ascii "https://api.openai.com/v1/chat/completions",
                   Header := [(ascii "Authorization", ascii "Bearer " ++ k),
                              (ascii "Content-Type", ascii "application/json")],
                   Body := ascii "\x7b\"model\":\"gpt-4o\",\"messages\":"
                     ++ marshalMessages (some (S.map
                          (fun s => { Role := ascii "system", Content := s })
                        ++ [{ Role := ascii "user", Content := userPrompt }]))
                     ++ ascii "\x7d\n" }] := by
  rw [Generate_sent env unmarshal _ _ w hurl, Generate_openAIReq_eq]
  have hmodel : ascii "\x7b\"model\":" ++ appendString (ascii "gpt-4o") ++ ascii ",\"messages\":"
      = ascii "\x7b\"model\":\"gpt-4o\",\"messages\":" := by decide
  have hend : ascii "\x7d\n" = ascii "\x7d" ++ [0x0A] := by decide
  simp only [marshalOpenAIChatRequest, NewGPT4oModel, hmodel, hend, MethodPost,
    chatCompletionsURL, List.append_assoc]

/-- A run of C8: key `sk-1`, one system message. -/
theorem C8_generate_http_request_witness :
    (Generate (Env.answering 200 twoChoicesBody) (unmarshalTable [])
        (NewGPT4oModel (ascii "sk-1") [ascii "be terse"]) (ascii "ping")
        World.empty).2.2.sent =
      [{ Method := ascii "POST",
         URL := ascii "https://api.openai.com/v1/chat/completions",
         Header := [(ascii "Authorization", ascii "Bearer sk-1"),
                    (ascii "Content-Type", ascii "application/json")],
         Body := ascii ("\x7b\"model\":\"gpt-4o\",\"messages\":"
           ++ "[\x7b\"role\":\"system\",\"content\":\"be terse\"\x7d,"
           ++ "\x7b\"role\":\"user\",\"content\":\"ping\"\x7d]\x7d\n") }] :=
  C8_generate_http_request (Env.answering 200 twoChoicesBody) (unmarshalTable [])
    (ascii "sk-1") [ascii "be terse"] (ascii "ping") World.empty (by rfl)

/-- C9: when the request is encoded, built and answered with a status code in
200 to 299 (both ends included), the body is read in full and `json.Unmarshal`
accepts it for the target, `bearerHttpRequest` returns no error and the target
holds the value decoded from that body. -/
theorem C9_success_fills_target {α β : Type} (env : Env)
    (marshal : α → Except GoError (List Nat))
    (unmarshal : List Nat → β → Option GoError × β)
    (token url method : GoString) (jsonReq : α) (jsonRes decoded : β) (w : World)
    (buf : List Nat) (req0 : HttpRequest) (StatusCode : Int) (resBody : List Nat)
    (henc : EncoderEncode marshal jsonReq = .ok buf)
    (hreq : NewRequest env method url buf = .ok req0)
    (hdo : env.Do w.sent
        ((req0.HeaderAdd (ascii "Authorization") (ascii "Bearer " ++ token)).HeaderAdd
          (ascii "Content-Type") (ascii "application/json"))
        = .response StatusCode resBody none)
    (hlo : 200 ≤ StatusCode) (hhi : StatusCode ≤ 299)
    (hdec : unmarshal resBody jsonRes = (none, decoded)) :
    (bearerHttpRequest env marshal unmarshal token url method jsonReq jsonRes w).1 = none
    ∧ (bearerHttpRequest env marshal unmarshal token url method jsonReq jsonRes w).2.1
        = decoded := by
  have hs : ¬ (StatusCode < 200 ∨ StatusCode > 299) := by omega
  unfold bearerHttpRequest
  simp only [henc, hreq, hdo, hs, if_false, hdec]
  simp

/-- Two runs of C9, at status 200 and at status 299, with the modelled decoder
of the request type as the target's decoder. -/
theorem C9_success_fills_target_witness :
    ((bearerHttpRequest (Env.answering 200 validRequestBody)
        (fun v => .ok (marshalOpenAIChatRequest v)) unmarshalRequestTarget
        (ascii "k") chatCompletionsURL MethodPost
        ({ Model := ascii "gpt-4o", Messages := none } : openAIChatRequest)
        ({ Model := [], Messages := none } : openAIChatRequest) World.empty).1 = none
      ∧ (bearerHttpRequest (Env.answering 200 validRequestBody)
        (fun v => .ok (marshalOpenAIChatRequest v)) unmarshalRequestTarget
        (ascii "k") chatCompletionsURL MethodPost
        ({ Model := ascii "gpt-4o", Messages := none } : openAIChatRequest)
        ({ Model := [], Messages := none } : openAIChatRequest) World.empty).2.1
        = { Model := ascii "m", Messages := some [] })
    ∧ ((bearerHttpRequest (Env.answering 299 validRequestBody)
        (fun v => .ok (marshalOpenAIChatRequest v)) unmarshalRequestTarget
        (ascii "k") chatCompletionsURL MethodPost
        ({ Model := ascii "gpt-4o", Messages := none } : openAIChatRequest)
        ({ Model := [], Messages := none } : openAIChatRequest) World.empty).1 = none
      ∧ (bearerHttpRequest (Env.answering 299 validRequestBody)
        (fun v => .ok (marshalOpenAIChatRequest v)) unmarshalRequestTarget
        (ascii "k") chatCompletionsURL MethodPost
        ({ Model := ascii "gpt-4o", Messages := none } : openAIChatRequest)
        ({ Model := [], Messages := none } : openAIChatRequest) World.empty).2.1
        = { Model := ascii "m", Messages := some [] }) :=
  ⟨C9_success_fills_target (Env.answering 200 validRequestBody)
    (fun v => .ok (marshalOpenAIChatRequest v)) unmarshalRequestTarget
    (ascii "k") chatCompletionsURL MethodPost
    ({ Model := ascii "gpt-4o", Messages := none } : openAIChatRequest)
    ({ Model := [], Messages := none } : openAIChatRequest)
    { Model := ascii "m", Messages := some [] } World.empty
    (marshalOpenAIChatRequest { Model := ascii "gpt-4o", Messages := none } ++ [0x0A])
    { Method := MethodPost, URL := chatCompletionsURL, Header := [],
      Body := marshalOpenAIChatRequest { Model := ascii "gpt-4o", Messages := none } ++ [0x0A] }
    200 validRequestBody (by rfl) (by rfl) (by rfl) (by decide) (by decide) (by decide),
   C9_success_fills_target (Env.answering 299 validRequestBody)
    (fun v => .ok (marshalOpenAIChatRequest v)) unmarshalRequestTarget
    (ascii "k") chatCompletionsURL MethodPost
    ({ Model := ascii "gpt-4o", Messages := none } : openAIChatRequest)
    ({ Model := [], Messages := none } : openAIChatRequest)
    { Model := ascii "m", Messages := some [] } World.empty
    (marshalOpenAIChatRequest { Model := ascii "gpt-4o", Messages := none } ++ [0x0A])
    { Method := MethodPost, URL := chatCompletionsURL, Header := [],
      Body := marshalOpenAIChatRequest { Model := ascii "gpt-4o", Messages := none } ++ [0x0A] }
    299 validRequestBody (by rfl) (by rfl) (by rfl) (by decide) (by decide) (by decide)⟩

/-- C10: when the transport call succeeds and the decoded response has no
choices, `Generate` indexes element 0 of an empty list: the call ends in the
runtime panic of an index out of range, neither in a result nor in a returned
error. -/
theorem C10_empty_choices_panics (env : Env)
    (unmarshal : List Nat → openAiChatResponse → Option GoError × openAiChatResponse)
    (oai : OpenAIChatModel) (userPrompt : GoString) (w : World)
    (hok : (bearerHttpRequest env (fun v => .ok (marshalOpenAIChatRequest v)) unmarshal
        oai.apiKey chatCompletionsURL MethodPost (Generate_openAIReq oai userPrompt)
        openAiChatResponse.zero w).1 = none)
    (hchoices : (bearerHttpRequest env (fun v => .ok (marshalOpenAIChatRequest v)) unmarshal
        oai.apiKey chatCompletionsURL MethodPost (Generate_openAIReq oai userPrompt)
        openAiChatResponse.zero w).2.1.Choices = []) :
    (Generate env unmarshal oai userPrompt w).1 = .panicIndexOutOfRange 0 0
    ∧ ∀ (s : GoString) (err : Option GoError),
        (Generate env unmarshal oai userPrompt w).1 ≠ .ret s err := by
  have h : (Generate env unmarshal oai userPrompt w).1 = .panicIndexOutOfRange 0 0 := by
    dsimp only [Generate]
    rw [hok, hchoices]
    simp
  refine ⟨h, ?_⟩
  intro s err hret
  rw [h] at hret
  cases hret

/-- A run of C10: status 200 and a body decoded to no choices. -/
theorem C10_empty_choices_panics_witness :
    (Generate (Env.answering 200 emptyChoicesBody)
        (unmarshalTable [(emptyChoicesBody, responseWithChoices [])])
        (NewGPT4oModel (ascii "k") []) (ascii "ping") World.empty).1
      = .panicIndexOutOfRange 0 0 :=
  (C10_empty_choices_panics (Env.answering 200 emptyChoicesBody)
    (unmarshalTable [(emptyChoicesBody, responseWithChoices [])])
    (NewGPT4oModel (ascii "k") []) (ascii "ping") World.empty (by rfl) (by rfl)).1

end Convogen
